import Mathlib

/-!
Verification of the voice/text social-connection subsystem of pbot-web.

The TypeScript sources embedded here are
`src/lib/queries/text-connections.ts` (text interaction scorer, server
activity weight, text graph, combined top friends) and
`src/lib/queries/voice-connections.ts` (voice graph, top friends,
voice recompute trigger).

Modelling conventions:
* JavaScript numbers are modelled as rationals; millisecond timestamps
  (`Date.getTime()`, ISO strings parsed through `new Date`) are rationals.
* JavaScript `Map` objects (which preserve insertion order) are modelled
  as association lists, `Map.get`/`Map.set` as `alistLookup`/`alistSet`.
* JavaScript string comparison `a < b` is modelled by the computable
  lexicographic comparison `jsStrLt`.
* `Array.prototype.sort(cmp)` (a stable sort w.r.t. a consistent
  comparator) is modelled as a stable insertion sort by the boolean
  relation `cmp a b <= 0`.
* `Math.round` (half-up) is `jsRound`, so `Math.round(x*100)/100` is
  `round2`.
* Datastore reads are passed in as explicit arguments; fallible queries
  and RPCs are `Except Unit` values; a `throw` is an `Except.error`.
-/

namespace Pbot

/-- Lexicographic comparison of character lists, code point by code point;
the order JavaScript uses for `stringA < stringB`. -/
def jsStrLtAux : List Char → List Char → Bool
  | _, [] => false
  | [], _ :: _ => true
  | c :: cs, d :: ds => if c < d then true else if d < c then false else jsStrLtAux cs ds

/-- JavaScript string comparison `a < b`. -/
def jsStrLt (a b : String) : Bool := jsStrLtAux a.data b.data

/-- JavaScript `Math.round`: round half toward positive infinity. -/
def jsRound (q : ℚ) : ℤ := ⌊q + 1 / 2⌋

/-- `Math.round(x * 100) / 100`: round to two decimal places. -/
def round2 (q : ℚ) : ℚ := (jsRound (q * 100) : ℚ) / 100

/-- `map.get(k)` on an insertion-ordered association list. -/
def alistLookup {α : Type} (k : String) : List (String × α) → Option α
  | [] => none
  | (k2, v) :: rest => if k2 = k then some v else alistLookup k rest

/-- `map.set(k, v)`: replace in place if the key is present, else append
(JavaScript `Map` preserves insertion order). -/
def alistSet {α : Type} (k : String) (v : α) : List (String × α) → List (String × α)
  | [] => [(k, v)]
  | (k2, v2) :: rest => if k2 = k then (k2, v) :: rest else (k2, v2) :: alistSet k v rest

/-- The keys of an association list, in insertion order. -/
def alistKeys {α : Type} (m : List (String × α)) : List String := m.map Prod.fst

/-- `set.add(x)` on an insertion-ordered string set. -/
def strSetAdd (x : String) (s : List String) : List String :=
  if x ∈ s then s else s ++ [x]

/-- Stable insertion of `x` into `l`: `x` goes before the first element
`y` with `le x y`. -/
def insertSorted {α : Type} (le : α → α → Bool) (x : α) : List α → List α
  | [] => [x]
  | y :: ys => if le x y then x :: y :: ys else y :: insertSorted le x ys

/-- Stable sort by a boolean comparator; models
`Array.prototype.sort(cmp)` for a consistent comparator, with
`le a b` meaning `cmp(a, b) <= 0`. -/
def sortByComparator {α : Type} (le : α → α → Bool) : List α → List α
  | [] => []
  | x :: xs => insertSorted le x (sortByComparator le xs)

theorem jsStrLtAux_asymm {a b : List Char} (h : jsStrLtAux a b = true) :
    jsStrLtAux b a = false := by
  induction a generalizing b with
  | nil =>
    cases b with
    | nil => simp [jsStrLtAux] at h
    | cons d ds => simp [jsStrLtAux]
  | cons c cs ih =>
    cases b with
    | nil => simp [jsStrLtAux] at h
    | cons d ds =>
      simp only [jsStrLtAux] at h ⊢
      rcases lt_trichotomy c d with hlt | heq | hgt
      · simp [hlt, not_lt.mpr hlt.le, ne_of_gt hlt] at h ⊢
      · subst heq
        simp only [lt_irrefl, if_false] at h ⊢
        exact ih h
      · simp [hgt, not_lt.mpr hgt.le] at h

theorem jsStrLtAux_eq_of_not_lt {a b : List Char} (h1 : jsStrLtAux a b = false)
    (h2 : jsStrLtAux b a = false) : a = b := by
  induction a generalizing b with
  | nil =>
    cases b with
    | nil => rfl
    | cons d ds => simp [jsStrLtAux] at h1
  | cons c cs ih =>
    cases b with
    | nil => simp [jsStrLtAux] at h2
    | cons d ds =>
      simp only [jsStrLtAux] at h1 h2
      rcases lt_trichotomy c d with hlt | heq | hgt
      · simp [hlt] at h1
      · subst heq
        simp only [lt_irrefl, if_false] at h1 h2
        exact congrArg₂ List.cons rfl (ih h1 h2)
      · simp [hgt] at h2

theorem jsStrLt_asymm {a b : String} (h : jsStrLt a b = true) : jsStrLt b a = false :=
  jsStrLtAux_asymm h

theorem jsStrLt_eq_of_not_lt {a b : String} (h1 : jsStrLt a b = false)
    (h2 : jsStrLt b a = false) : a = b := by
  cases a
  cases b
  exact congrArg String.mk (jsStrLtAux_eq_of_not_lt h1 h2)

theorem alistLookup_alistSet_self {α : Type} (k : String) (v : α)
    (m : List (String × α)) : alistLookup k (alistSet k v m) = some v := by
  induction m with
  | nil => simp [alistSet, alistLookup]
  | cons p rest ih =>
    obtain ⟨k2, v2⟩ := p
    by_cases h : k2 = k
    · simp [alistSet, alistLookup, h]
    · simp [alistSet, alistLookup, h, ih]

theorem alistLookup_alistSet_ne {α : Type} {k k2 : String} (v : α)
    (m : List (String × α)) (h : k2 ≠ k) :
    alistLookup k (alistSet k2 v m) = alistLookup k m := by
  induction m with
  | nil => simp [alistSet, alistLookup, h]
  | cons p rest ih =>
    obtain ⟨k3, v3⟩ := p
    by_cases h3 : k3 = k2
    · subst h3
      simp [alistSet, alistLookup, h]
    · by_cases h4 : k3 = k
      · simp [alistSet, alistLookup, h3, h4, Ne.symm h]
      · simp [alistSet, alistLookup, h3, h4, ih]

theorem alistLookup_eq_none_iff {α : Type} (k : String) (m : List (String × α)) :
    alistLookup k m = none ↔ k ∉ alistKeys m := by
  induction m with
  | nil => simp [alistLookup, alistKeys]
  | cons p rest ih =>
    obtain ⟨k2, v2⟩ := p
    by_cases h : k2 = k
    · simp [alistLookup, alistKeys, h]
    · simp [alistLookup, alistKeys, h, ih, Ne.symm h]

theorem alistKeys_alistSet {α : Type} (k2 : String) (v : α)
    (m : List (String × α)) :
    alistKeys (alistSet k2 v m) =
      if k2 ∈ alistKeys m then alistKeys m else alistKeys m ++ [k2] := by
  induction m with
  | nil => simp [alistSet, alistKeys]
  | cons p rest ih =>
    obtain ⟨k3, v3⟩ := p
    by_cases h : k3 = k2
    · subst h
      simp [alistSet, alistKeys]
    · by_cases h2 : k2 ∈ alistKeys rest
      · simp only [alistSet, if_neg h, alistKeys, List.map_cons] at ih h2 ⊢
        simp [ih, h2, Ne.symm h]
      · simp only [alistSet, if_neg h, alistKeys, List.map_cons] at ih h2 ⊢
        simp [ih, h2, Ne.symm h]

theorem mem_alistKeys_alistSet {α : Type} (k k2 : String) (v : α)
    (m : List (String × α)) :
    k ∈ alistKeys (alistSet k2 v m) ↔ k = k2 ∨ k ∈ alistKeys m := by
  rw [alistKeys_alistSet]
  by_cases h : k2 ∈ alistKeys m
  · rw [if_pos h]
    constructor
    · exact Or.inr
    · rintro (rfl | h2)
      · exact h
      · exact h2
  · rw [if_neg h]
    simp [or_comm]

theorem alistKeys_nodup_alistSet {α : Type} (k : String) (v : α)
    (m : List (String × α)) (h : (alistKeys m).Nodup) :
    (alistKeys (alistSet k v m)).Nodup := by
  rw [alistKeys_alistSet]
  by_cases h2 : k ∈ alistKeys m
  · rwa [if_pos h2]
  · rw [if_neg h2]
    simp [List.nodup_append, h, h2]

theorem mem_of_alistLookup_eq_some {α : Type} {k : String} {v : α}
    {m : List (String × α)} (h : alistLookup k m = some v) : (k, v) ∈ m := by
  induction m with
  | nil => simp [alistLookup] at h
  | cons p rest ih =>
    obtain ⟨k2, v2⟩ := p
    simp only [alistLookup] at h
    split at h
    next heq =>
      subst heq
      injection h with h2
      subst h2
      exact List.mem_cons_self _ _
    next heq =>
      exact List.mem_cons_of_mem _ (ih h)

theorem alistLookup_eq_some_of_mem {α : Type} {k : String} {v : α}
    {m : List (String × α)} (hnd : (alistKeys m).Nodup) (h : (k, v) ∈ m) :
    alistLookup k m = some v := by
  induction m with
  | nil => simp at h
  | cons p rest ih =>
    obtain ⟨k2, v2⟩ := p
    simp only [alistKeys, List.map_cons, List.nodup_cons] at hnd
    rcases List.mem_cons.mp h with h1 | h1
    · have hk : k = k2 := congrArg Prod.fst h1
      have hv : v = v2 := congrArg Prod.snd h1
      subst hk
      subst hv
      simp [alistLookup]
    · have hk : k2 ≠ k := by
        intro he
        subst he
        exact hnd.1 (List.mem_map.mpr ⟨(k2, v), h1, rfl⟩)
      simp only [alistLookup, if_neg hk]
      exact ih hnd.2 h1

theorem mem_alistSet {α : Type} {p : String × α} {k : String} {v : α}
    {m : List (String × α)} (h : p ∈ alistSet k v m) : p = (k, v) ∨ p ∈ m := by
  induction m with
  | nil => simpa [alistSet] using h
  | cons q rest ih =>
    obtain ⟨k2, v2⟩ := q
    by_cases h2 : k2 = k
    · subst h2
      simp only [alistSet, List.mem_cons, if_true, eq_self_iff_true] at h
      rcases h with h3 | h3
      · exact Or.inl h3
      · exact Or.inr (List.mem_cons_of_mem _ h3)
    · simp only [alistSet, if_neg h2, List.mem_cons] at h
      rcases h with h3 | h3
      · exact Or.inr (List.mem_cons.mpr (Or.inl h3))
      · rcases ih h3 with h4 | h4
        · exact Or.inl h4
        · exact Or.inr (List.mem_cons_of_mem _ h4)

theorem insertSorted_perm {α : Type} (le : α → α → Bool) (x : α) (l : List α) :
    (insertSorted le x l).Perm (x :: l) := by
  induction l with
  | nil => simp [insertSorted]
  | cons y ys ih =>
    cases hxy : le x y with
    | true => simp [insertSorted, hxy]
    | false =>
      simp only [insertSorted, hxy, Bool.false_eq_true, if_false]
      exact (ih.cons y).trans (List.Perm.swap x y ys)

theorem sortByComparator_perm {α : Type} (le : α → α → Bool) (l : List α) :
    (sortByComparator le l).Perm l := by
  induction l with
  | nil => simp [sortByComparator]
  | cons x xs ih =>
    exact (insertSorted_perm le x (sortByComparator le xs)).trans (ih.cons x)

theorem mem_insertSorted {α : Type} {le : α → α → Bool} {x a : α} {l : List α} :
    a ∈ insertSorted le x l ↔ a = x ∨ a ∈ l := by
  constructor
  · intro h
    have := (insertSorted_perm le x l).mem_iff.mp h
    simpa using this
  · intro h
    refine (insertSorted_perm le x l).mem_iff.mpr ?_
    simpa using h

theorem pairwise_insertSorted {α : Type} {le : α → α → Bool}
    (total : ∀ a b, le a b = true ∨ le b a = true)
    (trans : ∀ a b c, le a b = true → le b c = true → le a c = true)
    {x : α} {l : List α} (h : l.Pairwise (fun a b => le a b = true)) :
    (insertSorted le x l).Pairwise (fun a b => le a b = true) := by
  induction l with
  | nil => simp [insertSorted]
  | cons y ys ih =>
    rcases List.pairwise_cons.mp h with ⟨hy, hys⟩
    by_cases hxy : le x y = true
    · simp only [insertSorted, if_pos hxy]
      refine List.pairwise_cons.mpr ⟨?_, h⟩
      intro z hz
      rcases List.mem_cons.mp hz with hz | hz
      · subst hz; exact hxy
      · exact trans x y z hxy (hy z hz)
    · simp only [insertSorted, if_neg hxy]
      have hyx : le y x = true := by
        rcases total x y with h1 | h1
        · exact absurd h1 hxy
        · exact h1
      refine List.pairwise_cons.mpr ⟨?_, ih hys⟩
      intro z hz
      rcases mem_insertSorted.mp hz with hz | hz
      · subst hz; exact hyx
      · exact hy z hz

theorem pairwise_sortByComparator {α : Type} {le : α → α → Bool}
    (total : ∀ a b, le a b = true ∨ le b a = true)
    (trans : ∀ a b c, le a b = true → le b c = true → le a c = true)
    (l : List α) :
    (sortByComparator le l).Pairwise (fun a b => le a b = true) := by
  induction l with
  | nil => simp [sortByComparator]
  | cons x xs ih => exact pairwise_insertSorted total trans ih

/-! ### Text interaction scorer

Embeds `calculateTextConnectionsClientSide` from
`src/lib/queries/text-connections.ts` (lines 119-228): group the guild's
messages by channel, then for every in-channel pair of messages from two
distinct users within the five-minute proximity window, add
`1 - timeDiff / PROXIMITY_WINDOW_MS` to the pair's running interaction
score under the canonical `"lo:hi"` key. -/

/-- A `messages` row as selected by the fallback query:
`user_id, channel_id, created_at` (timestamp in milliseconds). -/
structure Msg where
  user_id : String
  channel_id : String
  created_at : ℚ

/-- A message after regrouping per channel (the scorer keeps only
`user_id` and `created_at`). -/
structure ChMsg where
  user_id : String
  created_at : ℚ

/-- One `connectionScores` map entry: canonical user pair, running
interaction score and the set of contributing channels. -/
structure ScoreAcc where
  user_id_1 : String
  user_id_2 : String
  shared_channel_count : ℕ
  interaction_score : ℚ
  channels : List String

/-- `const PROXIMITY_WINDOW_MS = 5 * 60 * 1000`. -/
def PROXIMITY_WINDOW_MS : ℚ := 5 * 60 * 1000

/-- The pair-key normalizer: `msg1.user_id < msg2.user_id ?
[msg1.user_id, msg2.user_id] : [msg2.user_id, msg1.user_id]`. -/
def canonPair (a b : String) : String × String :=
  if jsStrLt a b then (a, b) else (b, a)

/-- The composite key `&quot;lo:hi&quot;` built from factors of `canonPair`. -/
def canonKey (a b : String) : String :=
  (canonPair a b).1 ++ ":" ++ (canonPair a b).2

/-- One iteration of `messages.forEach` in the channel-grouping loop:
append the message to its channel's list. -/
def groupStep (acc : List (String × List ChMsg)) (msg : Msg) :
    List (String × List ChMsg) :=
  alistSet msg.channel_id
    (((alistLookup msg.channel_id acc).getD []) ++ [⟨msg.user_id, msg.created_at⟩]) acc

/-- `channelMessages`: messages grouped by channel, in first-appearance
channel order. -/
def groupByChannel (messages : List Msg) : List (String × List ChMsg) :=
  messages.foldl groupStep []

/-- The body of the inner double loop: process one `(msg1, msg2)` pair,
skipping same-user pairs and pairs beyond the proximity window, otherwise
adding `1 - timeDiff / PROXIMITY_WINDOW_MS` to the canonical pair's score
and recording the channel. -/
def scorePairStep (channelId : String) (m1 m2 : ChMsg)
    (scores : List (String × ScoreAcc)) : List (String × ScoreAcc) :=
  if m1.user_id = m2.user_id then scores
  else
    let timeDiff := |m2.created_at - m1.created_at|
    if timeDiff > PROXIMITY_WINDOW_MS then scores
    else
      let uid1 := (canonPair m1.user_id m2.user_id).1
      let uid2 := (canonPair m1.user_id m2.user_id).2
      let key := uid1 ++ ":" ++ uid2
      let existing := (alistLookup key scores).getD ⟨uid1, uid2, 0, 0, []⟩
      let proximityScore := 1 - timeDiff / PROXIMITY_WINDOW_MS
      alistSet key
        { existing with
          interaction_score := existing.interaction_score + proximityScore,
          channels := strSetAdd channelId existing.channels } scores

/-- The inner loop `for (let j = i + 1; ...)`: pair `m1` with every later
message of the channel. -/
def scoreInner (channelId : String) (m1 : ChMsg) :
    List ChMsg → List (String × ScoreAcc) → List (String × ScoreAcc)
  | [], scores => scores
  | m2 :: rest, scores => scoreInner channelId m1 rest (scorePairStep channelId m1 m2 scores)

/-- The outer loop `for (let i = 0; ...)` over one channel's messages. -/
def scoreChannel (channelId : String) :
    List ChMsg → List (String × ScoreAcc) → List (String × ScoreAcc)
  | [], scores => scores
  | m1 :: rest, scores => scoreChannel channelId rest (scoreInner channelId m1 rest scores)

/-- The full `connectionScores` map computed by
`calculateTextConnectionsClientSide` before the insert step. -/
def calculateTextConnectionScores (messages : List Msg) : List (String × ScoreAcc) :=
  (groupByChannel messages).foldl (fun scores p => scoreChannel p.1 p.2 scores) []

/-- A `text_connections` row as built for insertion: channel set size
becomes `shared_channel_count` and the score is rounded to two decimals. -/
structure TextConnectionRow where
  user_id_1 : String
  user_id_2 : String
  shared_channel_count : ℕ
  interaction_score : ℚ
  message_count : ℕ

/-- The rows inserted by the client-side fallback. -/
def textConnectionRows (messages : List Msg) : List TextConnectionRow :=
  (calculateTextConnectionScores messages).map fun p =>
    ⟨p.2.user_id_1, p.2.user_id_2, p.2.channels.length, round2 p.2.interaction_score, 0⟩

/-- The score one ordered message pair contributes, read off the branches
of the scorer: nothing for a same-user pair or a gap beyond five minutes,
otherwise `1 - timeDiff / PROXIMITY_WINDOW_MS`. -/
def pairContribution (m1 m2 : ChMsg) : ℚ :=
  if m1.user_id = m2.user_id then 0
  else if |m2.created_at - m1.created_at| > PROXIMITY_WINDOW_MS then 0
  else 1 - |m2.created_at - m1.created_at| / PROXIMITY_WINDOW_MS

/-- The part of a pair's contribution credited to the map key `k`. -/
def keyContribution (k : String) (m1 m2 : ChMsg) : ℚ :=
  if canonKey m1.user_id m2.user_id = k then pairContribution m1 m2 else 0

/-- Sum of the contributions of all ordered pairs `i < j` of a message
list toward key `k`. -/
def pairSum (k : String) : List ChMsg → ℚ
  | [] => 0
  | m :: rest => (rest.map (keyContribution k m)).sum + pairSum k rest

/-- The running interaction score stored under key `k` (0 if absent). -/
def interactionScoreAt (k : String) (scores : List (String × ScoreAcc)) : ℚ :=
  ((alistLookup k scores).map ScoreAcc.interaction_score).getD 0

theorem interactionScoreAt_nil (k : String) : interactionScoreAt k [] = 0 := by
  simp [interactionScoreAt, alistLookup]

theorem interactionScoreAt_scorePairStep (k channelId : String) (m1 m2 : ChMsg)
    (s : List (String × ScoreAcc)) :
    interactionScoreAt k (scorePairStep channelId m1 m2 s) =
      interactionScoreAt k s + keyContribution k m1 m2 := by
  by_cases hu : m1.user_id = m2.user_id
  · simp [scorePairStep, keyContribution, pairContribution, hu]
  · by_cases ht : |m2.created_at - m1.created_at| > PROXIMITY_WINDOW_MS
    · simp [scorePairStep, keyContribution, pairContribution, hu, ht]
    · by_cases hk : canonKey m1.user_id m2.user_id = k
      · rw [← hk]
        simp only [scorePairStep, if_neg hu, if_neg ht, keyContribution, if_pos rfl,
          pairContribution, interactionScoreAt, canonKey]
        rw [alistLookup_alistSet_self]
        cases hlook : alistLookup ((canonPair m1.user_id m2.user_id).1 ++ ":" ++
            (canonPair m1.user_id m2.user_id).2) s with
        | none => simp [hlook]
        | some e => simp [hlook]
      · simp only [scorePairStep, if_neg hu, if_neg ht, keyContribution,
          interactionScoreAt, canonKey] at hk ⊢
        rw [alistLookup_alistSet_ne _ _ hk, if_neg hk]
        ring

theorem interactionScoreAt_scoreInner (k channelId : String) (m1 : ChMsg)
    (ms : List ChMsg) (s : List (String × ScoreAcc)) :
    interactionScoreAt k (scoreInner channelId m1 ms s) =
      interactionScoreAt k s + (ms.map (keyContribution k m1)).sum := by
  induction ms generalizing s with
  | nil => simp [scoreInner]
  | cons m2 rest ih =>
    simp only [scoreInner, List.map_cons, List.sum_cons]
    rw [ih, interactionScoreAt_scorePairStep]
    ring

theorem interactionScoreAt_scoreChannel (k channelId : String) (ms : List ChMsg)
    (s : List (String × ScoreAcc)) :
    interactionScoreAt k (scoreChannel channelId ms s) =
      interactionScoreAt k s + pairSum k ms := by
  induction ms generalizing s with
  | nil => simp [scoreChannel, pairSum]
  | cons m1 rest ih =>
    simp only [scoreChannel, pairSum]
    rw [ih, interactionScoreAt_scoreInner]
    ring

theorem interactionScoreAt_foldChannels (k : String)
    (groups : List (String × List ChMsg)) (s : List (String × ScoreAcc)) :
    interactionScoreAt k
        (groups.foldl (fun scores p => scoreChannel p.1 p.2 scores) s) =
      interactionScoreAt k s + (groups.map (fun p => pairSum k p.2)).sum := by
  induction groups generalizing s with
  | nil => simp
  | cons g rest ih =>
    simp only [List.foldl_cons, List.map_cons, List.sum_cons]
    rw [ih, interactionScoreAt_scoreChannel]
    ring

theorem interactionScoreAt_calculateTextConnectionScores (k : String)
    (messages : List Msg) :
    interactionScoreAt k (calculateTextConnectionScores messages) =
      ((groupByChannel messages).map (fun p => pairSum k p.2)).sum := by
  rw [calculateTextConnectionScores, interactionScoreAt_foldChannels,
    interactionScoreAt_nil, zero_add]

theorem alistLookup_groupByChannel_fold (ch : String) (messages : List Msg)
    (acc : List (String × List ChMsg)) :
    ((alistLookup ch (messages.foldl groupStep acc)).getD []) =
      ((alistLookup ch acc).getD []) ++
        ((messages.filter (fun m => decide (m.channel_id = ch))).map
          (fun m => (⟨m.user_id, m.created_at⟩ : ChMsg))) := by
  induction messages generalizing acc with
  | nil => simp
  | cons m rest ih =>
    simp only [List.foldl_cons, List.filter_cons]
    by_cases hc : m.channel_id = ch
    · rw [ih]
      simp only [groupStep, hc, alistLookup_alistSet_self, Option.getD_some,
        decide_eq_true_eq, if_pos hc, List.map_cons]
      rw [List.append_assoc]
      simp
    · rw [ih]
      have hn : m.channel_id ≠ ch := hc
      simp [groupStep, alistLookup_alistSet_ne _ _ hn, hc]

theorem groupByChannel_channel_messages (ch : String) (messages : List Msg) :
    ((alistLookup ch (groupByChannel messages)).getD []) =
      (messages.filter (fun m => decide (m.channel_id = ch))).map
        (fun m => (⟨m.user_id, m.created_at⟩ : ChMsg)) := by
  rw [groupByChannel, alistLookup_groupByChannel_fold]
  simp [alistLookup]

theorem canonPair_comm (a b : String) : canonPair a b = canonPair b a := by
  unfold canonPair
  cases hab : jsStrLt a b with
  | true => rw [jsStrLt_asymm hab]; simp
  | false =>
    cases hba : jsStrLt b a with
    | true => simp
    | false =>
      have hab2 : a = b := jsStrLt_eq_of_not_lt hab hba
      subst hab2
      rfl

theorem canonKey_comm (a b : String) : canonKey a b = canonKey b a := by
  unfold canonKey
  rw [canonPair_comm]

theorem canonPair_fst_lt_snd {a b : String} (h : a ≠ b) :
    jsStrLt (canonPair a b).1 (canonPair a b).2 = true := by
  unfold canonPair
  cases hab : jsStrLt a b with
  | true => simpa using hab
  | false =>
    cases hba : jsStrLt b a with
    | true => simpa using hba
    | false => exact absurd (jsStrLt_eq_of_not_lt hab hba) h

theorem scorePairStep_user_swap (channelId : String) (u v : String) (t1 t2 : ℚ)
    (s : List (String × ScoreAcc)) :
    scorePairStep channelId ⟨u, t1⟩ ⟨v, t2⟩ s =
      scorePairStep channelId ⟨v, t1⟩ ⟨u, t2⟩ s := by
  by_cases huv : u = v
  · subst huv
    rfl
  · simp only [scorePairStep, if_neg huv, if_neg (Ne.symm huv)]
    rw [canonPair_comm u v]

/-- Every entry of the score map is stored under its canonical key: the
two user fields are in strictly increasing order and the key is
`user_id_1 ++ ":" ++ user_id_2`. -/
def CanonicalEntries (s : List (String × ScoreAcc)) : Prop :=
  ∀ p ∈ s, jsStrLt p.2.user_id_1 p.2.user_id_2 = true ∧
    p.1 = p.2.user_id_1 ++ ":" ++ p.2.user_id_2

theorem canonicalEntries_scorePairStep {s : List (String × ScoreAcc)}
    (h : CanonicalEntries s) (channelId : String) (m1 m2 : ChMsg) :
    CanonicalEntries (scorePairStep channelId m1 m2 s) := by
  by_cases hu : m1.user_id = m2.user_id
  · simpa [scorePairStep, hu] using h
  · by_cases ht : |m2.created_at - m1.created_at| > PROXIMITY_WINDOW_MS
    · simpa [scorePairStep, hu, ht] using h
    · intro p hp
      simp only [scorePairStep, if_neg hu, if_neg ht] at hp
      rcases mem_alistSet hp with hnew | hold
      · subst hnew
        cases hlook : alistLookup ((canonPair m1.user_id m2.user_id).1 ++ ":" ++
            (canonPair m1.user_id m2.user_id).2) s with
        | none =>
          simp only [hlook, Option.getD_none]
          exact ⟨canonPair_fst_lt_snd hu, trivial⟩
        | some e =>
          simp only [hlook, Option.getD_some]
          have he := h _ (mem_of_alistLookup_eq_some hlook)
          exact ⟨he.1, he.2⟩
      · exact h p hold

theorem canonicalEntries_scoreInner {s : List (String × ScoreAcc)}
    (h : CanonicalEntries s) (channelId : String) (m1 : ChMsg) (ms : List ChMsg) :
    CanonicalEntries (scoreInner channelId m1 ms s) := by
  induction ms generalizing s with
  | nil => simpa [scoreInner] using h
  | cons m2 rest ih =>
    exact ih (canonicalEntries_scorePairStep h channelId m1 m2)

theorem canonicalEntries_scoreChannel {s : List (String × ScoreAcc)}
    (h : CanonicalEntries s) (channelId : String) (ms : List ChMsg) :
    CanonicalEntries (scoreChannel channelId ms s) := by
  induction ms generalizing s with
  | nil => simpa [scoreChannel] using h
  | cons m1 rest ih =>
    exact ih (canonicalEntries_scoreInner h channelId m1 rest)

theorem canonicalEntries_calculateTextConnectionScores (messages : List Msg) :
    CanonicalEntries (calculateTextConnectionScores messages) := by
  rw [calculateTextConnectionScores]
  have hbase : CanonicalEntries ([] : List (String × ScoreAcc)) := by
    intro p hp
    simp at hp
  generalize ([] : List (String × ScoreAcc)) = s at hbase ⊢
  induction groupByChannel messages generalizing s with
  | nil => simpa using hbase
  | cons g rest ih =>
    simp only [List.foldl_cons]
    exact ih _ (canonicalEntries_scoreChannel hbase g.1 g.2)

/-! ### Voice graph transformer

Embeds `transformToGraph` from `src/lib/queries/voice-connections.ts`
(lines 77-127): one edge per connection, nodes built by folding the
connection list through an insertion-ordered node map. -/

/-- A `voice_connections_with_members` row. -/
structure VoiceConnection where
  user_id_1 : String
  user_id_2 : String
  shared_seconds : ℚ
  session_count : ℕ
  username_1 : Option String
  display_name_1 : Option String
  avatar_url_1 : Option String
  username_2 : Option String
  display_name_2 : Option String
  avatar_url_2 : Option String

structure VoiceGraphNode where
  id : String
  username : Option String
  displayName : Option String
  avatarUrl : Option String
  totalConnections : ℕ
  totalSharedTime : ℚ

structure VoiceGraphEdge where
  source : String
  target : String
  sharedSeconds : ℚ
  sessionCount : ℕ

/-- The add-or-update block for `conn.user_id_1` in the node map. -/
def addGraphUser1 (conn : VoiceConnection)
    (nodeMap : List (String × VoiceGraphNode)) : List (String × VoiceGraphNode) :=
  match alistLookup conn.user_id_1 nodeMap with
  | some existing1 =>
    alistSet conn.user_id_1
      { existing1 with
        totalConnections := existing1.totalConnections + 1,
        totalSharedTime := existing1.totalSharedTime + conn.shared_seconds } nodeMap
  | none =>
    alistSet conn.user_id_1
      ⟨conn.user_id_1, conn.username_1, conn.display_name_1, conn.avatar_url_1,
        1, conn.shared_seconds⟩ nodeMap

/-- The add-or-update block for `conn.user_id_2` in the node map. -/
def addGraphUser2 (conn : VoiceConnection)
    (nodeMap : List (String × VoiceGraphNode)) : List (String × VoiceGraphNode) :=
  match alistLookup conn.user_id_2 nodeMap with
  | some existing2 =>
    alistSet conn.user_id_2
      { existing2 with
        totalConnections := existing2.totalConnections + 1,
        totalSharedTime := existing2.totalSharedTime + conn.shared_seconds } nodeMap
  | none =>
    alistSet conn.user_id_2
      ⟨conn.user_id_2, conn.username_2, conn.display_name_2, conn.avatar_url_2,
        1, conn.shared_seconds⟩ nodeMap

/-- The `connections.map` loop: threads the node map through while
emitting one edge per connection. -/
def transformToGraphGo : List VoiceConnection → List (String × VoiceGraphNode) →
    List (String × VoiceGraphNode) × List VoiceGraphEdge
  | [], nodeMap => (nodeMap, [])
  | conn :: rest, nodeMap =>
    let m2 := addGraphUser2 conn (addGraphUser1 conn nodeMap)
    let r := transformToGraphGo rest m2
    (r.1, ⟨conn.user_id_1, conn.user_id_2, conn.shared_seconds, conn.session_count⟩ :: r.2)

/-- `transformToGraph(connections)`: nodes are the map's values in
insertion order (`Array.from(nodeMap.values())`), edges one per input. -/
def transformToGraph (connections : List VoiceConnection) :
    List VoiceGraphNode × List VoiceGraphEdge :=
  ((transformToGraphGo connections []).1.map Prod.snd,
    (transformToGraphGo connections []).2)

/-- How many of a connection's two user slots name `u` (0, 1 or 2). -/
def vAppearances (u : String) (c : VoiceConnection) : ℕ :=
  (if c.user_id_1 = u then 1 else 0) + (if c.user_id_2 = u then 1 else 0)

/-- Shared seconds a connection credits to user `u`: its metric once per
appearance. -/
def vTimeShare (u : String) (c : VoiceConnection) : ℚ :=
  c.shared_seconds * (vAppearances u c : ℚ)

/-- `totalConnections` recorded for `u` in a node map (0 if absent). -/
def nodeConnAt (u : String) (m : List (String × VoiceGraphNode)) : ℕ :=
  ((alistLookup u m).map VoiceGraphNode.totalConnections).getD 0

/-- `totalSharedTime` recorded for `u` in a node map (0 if absent). -/
def nodeTimeAt (u : String) (m : List (String × VoiceGraphNode)) : ℚ :=
  ((alistLookup u m).map VoiceGraphNode.totalSharedTime).getD 0

theorem alistLookup_alistSet_eq_none_iff {α : Type} (u k : String) (v : α)
    (m : List (String × α)) :
    alistLookup u (alistSet k v m) = none ↔ alistLookup u m = none ∧ k ≠ u := by
  rw [alistLookup_eq_none_iff, alistLookup_eq_none_iff, mem_alistKeys_alistSet]
  constructor
  · intro h
    exact ⟨fun h2 => h (Or.inr h2), fun h2 => h (Or.inl h2.symm)⟩
  · rintro ⟨h1, h2⟩ (h3 | h3)
    · exact h2 h3.symm
    · exact h1 h3

theorem nodeConnAt_addGraphUser1 (u : String) (conn : VoiceConnection)
    (m : List (String × VoiceGraphNode)) :
    nodeConnAt u (addGraphUser1 conn m) =
      nodeConnAt u m + (if conn.user_id_1 = u then 1 else 0) := by
  by_cases hu : conn.user_id_1 = u
  · subst hu
    cases hl : alistLookup conn.user_id_1 m with
    | some e => simp [addGraphUser1, hl, nodeConnAt, alistLookup_alistSet_self]
    | none => simp [addGraphUser1, hl, nodeConnAt, alistLookup_alistSet_self]
  · cases hl : alistLookup conn.user_id_1 m with
    | some e => simp [addGraphUser1, hl, nodeConnAt, alistLookup_alistSet_ne _ _ hu, hu]
    | none => simp [addGraphUser1, hl, nodeConnAt, alistLookup_alistSet_ne _ _ hu, hu]

theorem nodeConnAt_addGraphUser2 (u : String) (conn : VoiceConnection)
    (m : List (String × VoiceGraphNode)) :
    nodeConnAt u (addGraphUser2 conn m) =
      nodeConnAt u m + (if conn.user_id_2 = u then 1 else 0) := by
  by_cases hu : conn.user_id_2 = u
  · subst hu
    cases hl : alistLookup conn.user_id_2 m with
    | some e => simp [addGraphUser2, hl, nodeConnAt, alistLookup_alistSet_self]
    | none => simp [addGraphUser2, hl, nodeConnAt, alistLookup_alistSet_self]
  · cases hl : alistLookup conn.user_id_2 m with
    | some e => simp [addGraphUser2, hl, nodeConnAt, alistLookup_alistSet_ne _ _ hu, hu]
    | none => simp [addGraphUser2, hl, nodeConnAt, alistLookup_alistSet_ne _ _ hu, hu]

theorem nodeTimeAt_addGraphUser1 (u : String) (conn : VoiceConnection)
    (m : List (String × VoiceGraphNode)) :
    nodeTimeAt u (addGraphUser1 conn m) =
      nodeTimeAt u m + (if conn.user_id_1 = u then conn.shared_seconds else 0) := by
  by_cases hu : conn.user_id_1 = u
  · subst hu
    cases hl : alistLookup conn.user_id_1 m with
    | some e => simp [addGraphUser1, hl, nodeTimeAt, alistLookup_alistSet_self]
    | none => simp [addGraphUser1, hl, nodeTimeAt, alistLookup_alistSet_self]
  · cases hl : alistLookup conn.user_id_1 m with
    | some e => simp [addGraphUser1, hl, nodeTimeAt, alistLookup_alistSet_ne _ _ hu, hu]
    | none => simp [addGraphUser1, hl, nodeTimeAt, alistLookup_alistSet_ne _ _ hu, hu]

theorem nodeTimeAt_addGraphUser2 (u : String) (conn : VoiceConnection)
    (m : List (String × VoiceGraphNode)) :
    nodeTimeAt u (addGraphUser2 conn m) =
      nodeTimeAt u m + (if conn.user_id_2 = u then conn.shared_seconds else 0) := by
  by_cases hu : conn.user_id_2 = u
  · subst hu
    cases hl : alistLookup conn.user_id_2 m with
    | some e => simp [addGraphUser2, hl, nodeTimeAt, alistLookup_alistSet_self]
    | none => simp [addGraphUser2, hl, nodeTimeAt, alistLookup_alistSet_self]
  · cases hl : alistLookup conn.user_id_2 m with
    | some e => simp [addGraphUser2, hl, nodeTimeAt, alistLookup_alistSet_ne _ _ hu, hu]
    | none => simp [addGraphUser2, hl, nodeTimeAt, alistLookup_alistSet_ne _ _ hu, hu]

theorem addGraphUser1_eq_none_iff (u : String) (conn : VoiceConnection)
    (m : List (String × VoiceGraphNode)) :
    alistLookup u (addGraphUser1 conn m) = none ↔
      alistLookup u m = none ∧ conn.user_id_1 ≠ u := by
  cases hl : alistLookup conn.user_id_1 m with
  | some e => simp [addGraphUser1, hl, alistLookup_alistSet_eq_none_iff]
  | none => simp [addGraphUser1, hl, alistLookup_alistSet_eq_none_iff]

theorem addGraphUser2_eq_none_iff (u : String) (conn : VoiceConnection)
    (m : List (String × VoiceGraphNode)) :
    alistLookup u (addGraphUser2 conn m) = none ↔
      alistLookup u m = none ∧ conn.user_id_2 ≠ u := by
  cases hl : alistLookup conn.user_id_2 m with
  | some e => simp [addGraphUser2, hl, alistLookup_alistSet_eq_none_iff]
  | none => simp [addGraphUser2, hl, alistLookup_alistSet_eq_none_iff]

theorem transformToGraphGo_edges (conns : List VoiceConnection)
    (m : List (String × VoiceGraphNode)) :
    (transformToGraphGo conns m).2 =
      conns.map (fun c => (⟨c.user_id_1, c.user_id_2, c.shared_seconds,
        c.session_count⟩ : VoiceGraphEdge)) := by
  induction conns generalizing m with
  | nil => simp [transformToGraphGo]
  | cons c rest ih => simp [transformToGraphGo, ih]

theorem nodeConnAt_transformToGraphGo (u : String) (conns : List VoiceConnection)
    (m : List (String × VoiceGraphNode)) :
    nodeConnAt u (transformToGraphGo conns m).1 =
      nodeConnAt u m + (conns.map (vAppearances u)).sum := by
  induction conns generalizing m with
  | nil => simp [transformToGraphGo]
  | cons c rest ih =>
    simp only [transformToGraphGo, List.map_cons, List.sum_cons]
    rw [ih, nodeConnAt_addGraphUser2, nodeConnAt_addGraphUser1, vAppearances]
    ring

theorem nodeTimeAt_transformToGraphGo (u : String) (conns : List VoiceConnection)
    (m : List (String × VoiceGraphNode)) :
    nodeTimeAt u (transformToGraphGo conns m).1 =
      nodeTimeAt u m + (conns.map (vTimeShare u)).sum := by
  induction conns generalizing m with
  | nil => simp [transformToGraphGo]
  | cons c rest ih =>
    simp only [transformToGraphGo, List.map_cons, List.sum_cons]
    rw [ih, nodeTimeAt_addGraphUser2, nodeTimeAt_addGraphUser1, vTimeShare, vAppearances]
    by_cases h1 : c.user_id_1 = u
    · by_cases h2 : c.user_id_2 = u
      · simp only [h1, h2, if_true, eq_self_iff_true]
        push_cast
        ring
      · simp only [h1, h2, if_true, if_false, eq_self_iff_true, if_neg h2]
        push_cast
        ring
    · by_cases h2 : c.user_id_2 = u
      · simp only [if_neg h1, h2, eq_self_iff_true, if_true]
        push_cast
        ring
      · simp only [if_neg h1, if_neg h2]
        push_cast
        ring

theorem transformToGraphGo_lookup_eq_none_iff (u : String)
    (conns : List VoiceConnection) (m : List (String × VoiceGraphNode)) :
    alistLookup u (transformToGraphGo conns m).1 = none ↔
      alistLookup u m = none ∧ ∀ c ∈ conns, c.user_id_1 ≠ u ∧ c.user_id_2 ≠ u := by
  induction conns generalizing m with
  | nil => simp [transformToGraphGo]
  | cons c rest ih =>
    simp only [transformToGraphGo]
    rw [ih, addGraphUser2_eq_none_iff, addGraphUser1_eq_none_iff]
    constructor
    · rintro ⟨⟨⟨h1, h2⟩, h3⟩, h4⟩
      refine ⟨h1, ?_⟩
      intro x hx
      rcases List.mem_cons.mp hx with hx | hx
      · subst hx
        exact ⟨h2, h3⟩
      · exact h4 x hx
    · rintro ⟨h1, h2⟩
      have hc := h2 c (List.mem_cons_self c rest)
      exact ⟨⟨⟨h1, hc.1⟩, hc.2⟩, fun x hx => h2 x (List.mem_cons_of_mem _ hx)⟩

/-- Every node-map entry records the user id it is keyed by. -/
def NodeIds (m : List (String × VoiceGraphNode)) : Prop :=
  ∀ p ∈ m, p.2.id = p.1

theorem nodeIds_addGraphUser1 {m : List (String × VoiceGraphNode)}
    (h : NodeIds m) (conn : VoiceConnection) : NodeIds (addGraphUser1 conn m) := by
  intro p hp
  cases hl : alistLookup conn.user_id_1 m with
  | some e =>
    rw [addGraphUser1, hl] at hp
    rcases mem_alistSet hp with hnew | hold
    · subst hnew
      have he := h _ (mem_of_alistLookup_eq_some hl)
      simpa using he
    · exact h p hold
  | none =>
    rw [addGraphUser1, hl] at hp
    rcases mem_alistSet hp with hnew | hold
    · subst hnew
      rfl
    · exact h p hold

theorem nodeIds_addGraphUser2 {m : List (String × VoiceGraphNode)}
    (h : NodeIds m) (conn : VoiceConnection) : NodeIds (addGraphUser2 conn m) := by
  intro p hp
  cases hl : alistLookup conn.user_id_2 m with
  | some e =>
    rw [addGraphUser2, hl] at hp
    rcases mem_alistSet hp with hnew | hold
    · subst hnew
      have he := h _ (mem_of_alistLookup_eq_some hl)
      simpa using he
    · exact h p hold
  | none =>
    rw [addGraphUser2, hl] at hp
    rcases mem_alistSet hp with hnew | hold
    · subst hnew
      rfl
    · exact h p hold

theorem nodeIds_transformToGraphGo {m : List (String × VoiceGraphNode)}
    (h : NodeIds m) (conns : List VoiceConnection) :
    NodeIds (transformToGraphGo conns m).1 := by
  induction conns generalizing m with
  | nil => simpa [transformToGraphGo] using h
  | cons c rest ih =>
    exact ih (nodeIds_addGraphUser2 (nodeIds_addGraphUser1 h c) c)

theorem addGraphUser1_keys_nodup {m : List (String × VoiceGraphNode)}
    (h : (alistKeys m).Nodup) (conn : VoiceConnection) :
    (alistKeys (addGraphUser1 conn m)).Nodup := by
  cases hl : alistLookup conn.user_id_1 m with
  | some e => rw [addGraphUser1, hl]; exact alistKeys_nodup_alistSet _ _ _ h
  | none => rw [addGraphUser1, hl]; exact alistKeys_nodup_alistSet _ _ _ h

theorem addGraphUser2_keys_nodup {m : List (String × VoiceGraphNode)}
    (h : (alistKeys m).Nodup) (conn : VoiceConnection) :
    (alistKeys (addGraphUser2 conn m)).Nodup := by
  cases hl : alistLookup conn.user_id_2 m with
  | some e => rw [addGraphUser2, hl]; exact alistKeys_nodup_alistSet _ _ _ h
  | none => rw [addGraphUser2, hl]; exact alistKeys_nodup_alistSet _ _ _ h

theorem transformToGraphGo_keys_nodup {m : List (String × VoiceGraphNode)}
    (h : (alistKeys m).Nodup) (conns : List VoiceConnection) :
    (alistKeys (transformToGraphGo conns m).1).Nodup := by
  induction conns generalizing m with
  | nil => simpa [transformToGraphGo] using h
  | cons c rest ih =>
    exact ih (addGraphUser2_keys_nodup (addGraphUser1_keys_nodup h c) c)

/-! ### Text graph transformer

Embeds `transformToTextGraph` from `src/lib/queries/text-connections.ts`
(lines 330-380), structurally identical to the voice transformer but
over `interaction_score`. -/

/-- A `text_connections_with_members` row. -/
structure TextConnection where
  user_id_1 : String
  user_id_2 : String
  shared_channel_count : ℕ
  interaction_score : ℚ
  message_count : ℕ
  username_1 : Option String
  display_name_1 : Option String
  avatar_url_1 : Option String
  username_2 : Option String
  display_name_2 : Option String
  avatar_url_2 : Option String

structure TextGraphNode where
  id : String
  username : Option String
  displayName : Option String
  avatarUrl : Option String
  totalConnections : ℕ
  totalInteractionScore : ℚ

structure TextGraphEdge where
  source : String
  target : String
  interactionScore : ℚ
  sharedChannelCount : ℕ

/-- The add-or-update block for `conn.user_id_1` in the text node map. -/
def addTextGraphUser1 (conn : TextConnection)
    (nodeMap : List (String × TextGraphNode)) : List (String × TextGraphNode) :=
  match alistLookup conn.user_id_1 nodeMap with
  | some existing1 =>
    alistSet conn.user_id_1
      { existing1 with
        totalConnections := existing1.totalConnections + 1,
        totalInteractionScore := existing1.totalInteractionScore + conn.interaction_score } nodeMap
  | none =>
    alistSet conn.user_id_1
      ⟨conn.user_id_1, conn.username_1, conn.display_name_1, conn.avatar_url_1,
        1, conn.interaction_score⟩ nodeMap

/-- The add-or-update block for `conn.user_id_2` in the text node map. -/
def addTextGraphUser2 (conn : TextConnection)
    (nodeMap : List (String × TextGraphNode)) : List (String × TextGraphNode) :=
  match alistLookup conn.user_id_2 nodeMap with
  | some existing2 =>
    alistSet conn.user_id_2
      { existing2 with
        totalConnections := existing2.totalConnections + 1,
        totalInteractionScore := existing2.totalInteractionScore + conn.interaction_score } nodeMap
  | none =>
    alistSet conn.user_id_2
      ⟨conn.user_id_2, conn.username_2, conn.display_name_2, conn.avatar_url_2,
        1, conn.interaction_score⟩ nodeMap

/-- The `connections.map` loop of `transformToTextGraph`. -/
def transformToTextGraphGo : List TextConnection → List (String × TextGraphNode) →
    List (String × TextGraphNode) × List TextGraphEdge
  | [], nodeMap => (nodeMap, [])
  | conn :: rest, nodeMap =>
    let m2 := addTextGraphUser2 conn (addTextGraphUser1 conn nodeMap)
    let r := transformToTextGraphGo rest m2
    (r.1, ⟨conn.user_id_1, conn.user_id_2, conn.interaction_score,
      conn.shared_channel_count⟩ :: r.2)

/-- `transformToTextGraph(connections)`. -/
def transformToTextGraph (connections : List TextConnection) :
    List TextGraphNode × List TextGraphEdge :=
  ((transformToTextGraphGo connections []).1.map Prod.snd,
    (transformToTextGraphGo connections []).2)

/-- How many of a text connection's two user slots name `u`. -/
def tAppearances (u : String) (c : TextConnection) : ℕ :=
  (if c.user_id_1 = u then 1 else 0) + (if c.user_id_2 = u then 1 else 0)

/-- Interaction score a text connection credits to user `u`. -/
def tScoreShare (u : String) (c : TextConnection) : ℚ :=
  c.interaction_score * (tAppearances u c : ℚ)

/-- `totalConnections` recorded for `u` in a text node map. -/
def textNodeConnAt (u : String) (m : List (String × TextGraphNode)) : ℕ :=
  ((alistLookup u m).map TextGraphNode.totalConnections).getD 0

/-- `totalInteractionScore` recorded for `u` in a text node map. -/
def textNodeScoreAt (u : String) (m : List (String × TextGraphNode)) : ℚ :=
  ((alistLookup u m).map TextGraphNode.totalInteractionScore).getD 0

theorem textNodeConnAt_addTextGraphUser1 (u : String) (conn : TextConnection)
    (m : List (String × TextGraphNode)) :
    textNodeConnAt u (addTextGraphUser1 conn m) =
      textNodeConnAt u m + (if conn.user_id_1 = u then 1 else 0) := by
  by_cases hu : conn.user_id_1 = u
  · subst hu
    cases hl : alistLookup conn.user_id_1 m with
    | some e => simp [addTextGraphUser1, hl, textNodeConnAt, alistLookup_alistSet_self]
    | none => simp [addTextGraphUser1, hl, textNodeConnAt, alistLookup_alistSet_self]
  · cases hl : alistLookup conn.user_id_1 m with
    | some e => simp [addTextGraphUser1, hl, textNodeConnAt, alistLookup_alistSet_ne _ _ hu, hu]
    | none => simp [addTextGraphUser1, hl, textNodeConnAt, alistLookup_alistSet_ne _ _ hu, hu]

theorem textNodeConnAt_addTextGraphUser2 (u : String) (conn : TextConnection)
    (m : List (String × TextGraphNode)) :
    textNodeConnAt u (addTextGraphUser2 conn m) =
      textNodeConnAt u m + (if conn.user_id_2 = u then 1 else 0) := by
  by_cases hu : conn.user_id_2 = u
  · subst hu
    cases hl : alistLookup conn.user_id_2 m with
    | some e => simp [addTextGraphUser2, hl, textNodeConnAt, alistLookup_alistSet_self]
    | none => simp [addTextGraphUser2, hl, textNodeConnAt, alistLookup_alistSet_self]
  · cases hl : alistLookup conn.user_id_2 m with
    | some e => simp [addTextGraphUser2, hl, textNodeConnAt, alistLookup_alistSet_ne _ _ hu, hu]
    | none => simp [addTextGraphUser2, hl, textNodeConnAt, alistLookup_alistSet_ne _ _ hu, hu]

theorem textNodeScoreAt_addTextGraphUser1 (u : String) (conn : TextConnection)
    (m : List (String × TextGraphNode)) :
    textNodeScoreAt u (addTextGraphUser1 conn m) =
      textNodeScoreAt u m + (if conn.user_id_1 = u then conn.interaction_score else 0) := by
  by_cases hu : conn.user_id_1 = u
  · subst hu
    cases hl : alistLookup conn.user_id_1 m with
    | some e => simp [addTextGraphUser1, hl, textNodeScoreAt, alistLookup_alistSet_self]
    | none => simp [addTextGraphUser1, hl, textNodeScoreAt, alistLookup_alistSet_self]
  · cases hl : alistLookup conn.user_id_1 m with
    | some e => simp [addTextGraphUser1, hl, textNodeScoreAt, alistLookup_alistSet_ne _ _ hu, hu]
    | none => simp [addTextGraphUser1, hl, textNodeScoreAt, alistLookup_alistSet_ne _ _ hu, hu]

theorem textNodeScoreAt_addTextGraphUser2 (u : String) (conn : TextConnection)
    (m : List (String × TextGraphNode)) :
    textNodeScoreAt u (addTextGraphUser2 conn m) =
      textNodeScoreAt u m + (if conn.user_id_2 = u then conn.interaction_score else 0) := by
  by_cases hu : conn.user_id_2 = u
  · subst hu
    cases hl : alistLookup conn.user_id_2 m with
    | some e => simp [addTextGraphUser2, hl, textNodeScoreAt, alistLookup_alistSet_self]
    | none => simp [addTextGraphUser2, hl, textNodeScoreAt, alistLookup_alistSet_self]
  · cases hl : alistLookup conn.user_id_2 m with
    | some e => simp [addTextGraphUser2, hl, textNodeScoreAt, alistLookup_alistSet_ne _ _ hu, hu]
    | none => simp [addTextGraphUser2, hl, textNodeScoreAt, alistLookup_alistSet_ne _ _ hu, hu]

theorem addTextGraphUser1_eq_none_iff (u : String) (conn : TextConnection)
    (m : List (String × TextGraphNode)) :
    alistLookup u (addTextGraphUser1 conn m) = none ↔
      alistLookup u m = none ∧ conn.user_id_1 ≠ u := by
  cases hl : alistLookup conn.user_id_1 m with
  | some e => simp [addTextGraphUser1, hl, alistLookup_alistSet_eq_none_iff]
  | none => simp [addTextGraphUser1, hl, alistLookup_alistSet_eq_none_iff]

theorem addTextGraphUser2_eq_none_iff (u : String) (conn : TextConnection)
    (m : List (String × TextGraphNode)) :
    alistLookup u (addTextGraphUser2 conn m) = none ↔
      alistLookup u m = none ∧ conn.user_id_2 ≠ u := by
  cases hl : alistLookup conn.user_id_2 m with
  | some e => simp [addTextGraphUser2, hl, alistLookup_alistSet_eq_none_iff]
  | none => simp [addTextGraphUser2, hl, alistLookup_alistSet_eq_none_iff]

theorem transformToTextGraphGo_edges (conns : List TextConnection)
    (m : List (String × TextGraphNode)) :
    (transformToTextGraphGo conns m).2 =
      conns.map (fun c => (⟨c.user_id_1, c.user_id_2, c.interaction_score,
        c.shared_channel_count⟩ : TextGraphEdge)) := by
  induction conns generalizing m with
  | nil => simp [transformToTextGraphGo]
  | cons c rest ih => simp [transformToTextGraphGo, ih]

theorem textNodeConnAt_transformToTextGraphGo (u : String)
    (conns : List TextConnection) (m : List (String × TextGraphNode)) :
    textNodeConnAt u (transformToTextGraphGo conns m).1 =
      textNodeConnAt u m + (conns.map (tAppearances u)).sum := by
  induction conns generalizing m with
  | nil => simp [transformToTextGraphGo]
  | cons c rest ih =>
    simp only [transformToTextGraphGo, List.map_cons, List.sum_cons]
    rw [ih, textNodeConnAt_addTextGraphUser2, textNodeConnAt_addTextGraphUser1,
      tAppearances]
    ring

theorem textNodeScoreAt_transformToTextGraphGo (u : String)
    (conns : List TextConnection) (m : List (String × TextGraphNode)) :
    textNodeScoreAt u (transformToTextGraphGo conns m).1 =
      textNodeScoreAt u m + (conns.map (tScoreShare u)).sum := by
  induction conns generalizing m with
  | nil => simp [transformToTextGraphGo]
  | cons c rest ih =>
    simp only [transformToTextGraphGo, List.map_cons, List.sum_cons]
    rw [ih, textNodeScoreAt_addTextGraphUser2, textNodeScoreAt_addTextGraphUser1,
      tScoreShare, tAppearances]
    by_cases h1 : c.user_id_1 = u
    · by_cases h2 : c.user_id_2 = u
      · simp only [h1, h2, eq_self_iff_true, if_true]
        push_cast
        ring
      · simp only [h1, eq_self_iff_true, if_true, if_neg h2]
        push_cast
        ring
    · by_cases h2 : c.user_id_2 = u
      · simp only [if_neg h1, h2, eq_self_iff_true, if_true]
        push_cast
        ring
      · simp only [if_neg h1, if_neg h2]
        push_cast
        ring

theorem transformToTextGraphGo_lookup_eq_none_iff (u : String)
    (conns : List TextConnection) (m : List (String × TextGraphNode)) :
    alistLookup u (transformToTextGraphGo conns m).1 = none ↔
      alistLookup u m = none ∧ ∀ c ∈ conns, c.user_id_1 ≠ u ∧ c.user_id_2 ≠ u := by
  induction conns generalizing m with
  | nil => simp [transformToTextGraphGo]
  | cons c rest ih =>
    simp only [transformToTextGraphGo]
    rw [ih, addTextGraphUser2_eq_none_iff, addTextGraphUser1_eq_none_iff]
    constructor
    · rintro ⟨⟨⟨h1, h2⟩, h3⟩, h4⟩
      refine ⟨h1, ?_⟩
      intro x hx
      rcases List.mem_cons.mp hx with hx | hx
      · subst hx
        exact ⟨h2, h3⟩
      · exact h4 x hx
    · rintro ⟨h1, h2⟩
      have hc := h2 c (List.mem_cons_self c rest)
      exact ⟨⟨⟨h1, hc.1⟩, hc.2⟩, fun x hx => h2 x (List.mem_cons_of_mem _ hx)⟩

/-- Every text node-map entry records the user id it is keyed by. -/
def TextNodeIds (m : List (String × TextGraphNode)) : Prop :=
  ∀ p ∈ m, p.2.id = p.1

theorem textNodeIds_addTextGraphUser1 {m : List (String × TextGraphNode)}
    (h : TextNodeIds m) (conn : TextConnection) :
    TextNodeIds (addTextGraphUser1 conn m) := by
  intro p hp
  cases hl : alistLookup conn.user_id_1 m with
  | some e =>
    rw [addTextGraphUser1, hl] at hp
    rcases mem_alistSet hp with hnew | hold
    · subst hnew
      have he := h _ (mem_of_alistLookup_eq_some hl)
      simpa using he
    · exact h p hold
  | none =>
    rw [addTextGraphUser1, hl] at hp
    rcases mem_alistSet hp with hnew | hold
    · subst hnew
      rfl
    · exact h p hold

theorem textNodeIds_addTextGraphUser2 {m : List (String × TextGraphNode)}
    (h : TextNodeIds m) (conn : TextConnection) :
    TextNodeIds (addTextGraphUser2 conn m) := by
  intro p hp
  cases hl : alistLookup conn.user_id_2 m with
  | some e =>
    rw [addTextGraphUser2, hl] at hp
    rcases mem_alistSet hp with hnew | hold
    · subst hnew
      have he := h _ (mem_of_alistLookup_eq_some hl)
      simpa using he
    · exact h p hold
  | none =>
    rw [addTextGraphUser2, hl] at hp
    rcases mem_alistSet hp with hnew | hold
    · subst hnew
      rfl
    · exact h p hold

theorem textNodeIds_transformToTextGraphGo {m : List (String × TextGraphNode)}
    (h : TextNodeIds m) (conns : List TextConnection) :
    TextNodeIds (transformToTextGraphGo conns m).1 := by
  induction conns generalizing m with
  | nil => simpa [transformToTextGraphGo] using h
  | cons c rest ih =>
    exact ih (textNodeIds_addTextGraphUser2 (textNodeIds_addTextGraphUser1 h c) c)

theorem addTextGraphUser1_keys_nodup {m : List (String × TextGraphNode)}
    (h : (alistKeys m).Nodup) (conn : TextConnection) :
    (alistKeys (addTextGraphUser1 conn m)).Nodup := by
  cases hl : alistLookup conn.user_id_1 m with
  | some e => rw [addTextGraphUser1, hl]; exact alistKeys_nodup_alistSet _ _ _ h
  | none => rw [addTextGraphUser1, hl]; exact alistKeys_nodup_alistSet _ _ _ h

theorem addTextGraphUser2_keys_nodup {m : List (String × TextGraphNode)}
    (h : (alistKeys m).Nodup) (conn : TextConnection) :
    (alistKeys (addTextGraphUser2 conn m)).Nodup := by
  cases hl : alistLookup conn.user_id_2 m with
  | some e => rw [addTextGraphUser2, hl]; exact alistKeys_nodup_alistSet _ _ _ h
  | none => rw [addTextGraphUser2, hl]; exact alistKeys_nodup_alistSet _ _ _ h

theorem transformToTextGraphGo_keys_nodup {m : List (String × TextGraphNode)}
    (h : (alistKeys m).Nodup) (conns : List TextConnection) :
    (alistKeys (transformToTextGraphGo conns m).1).Nodup := by
  induction conns generalizing m with
  | nil => simpa [transformToTextGraphGo] using h
  | cons c rest ih =>
    exact ih (addTextGraphUser2_keys_nodup (addTextGraphUser1_keys_nodup h c) c)

/-! ### Activity weight normalizer (`getServerActivityWeight`) -/

/-- The `ServerActivityWeight` return value. -/
structure ServerActivityWeight where
  voiceWeight : ℚ
  textWeight : ℚ
  totalVoiceMinutes : ℚ
  totalMessages : ℚ

/-- `getServerActivityWeight` after the two `reduce` sums: voice minutes
count one-for-one against messages; equal `0.5` weights when the guild
total is zero. -/
def getServerActivityWeight (totalMessages totalVoiceMinutes : ℚ) :
    ServerActivityWeight :=
  let voiceEquivalent := totalVoiceMinutes
  let total := totalMessages + voiceEquivalent
  if total = 0 then
    ⟨0.5, 0.5, totalVoiceMinutes, totalMessages⟩
  else
    ⟨voiceEquivalent / total, totalMessages / total, totalVoiceMinutes, totalMessages⟩

/-! ### Cache staleness and graph getters

`getVoiceGraph` (voice-connections.ts lines 133-171) and `getTextGraph`
(text-connections.ts lines 386-421). The datastore reads
(`getConnectionsLastCalculated`, the cached connection rows) are inputs;
the recompute side effect is reported in the `didRecalculate` field. -/

structure VoiceGraphResult where
  nodes : List VoiceGraphNode
  edges : List VoiceGraphEdge
  calculatedAt : Option ℚ
  isStale : Bool
  didRecalculate : Bool

/-- `getVoiceGraph(guildId, timeRange, maxAgeHours)`. -/
def getVoiceGraph (now : ℚ) (lastCalculated : Option ℚ)
    (connections : List VoiceConnection) (maxAgeHours : ℚ) : VoiceGraphResult :=
  let isStale : Bool :=
    match lastCalculated with
    | none => true
    | some t => decide (now - t > maxAgeHours * 60 * 60 * 1000)
  let g := transformToGraph connections
  { nodes := g.1, edges := g.2,
    calculatedAt := if isStale then some now else lastCalculated,
    isStale := isStale,
    didRecalculate := isStale }

structure TextGraphResult where
  nodes : List TextGraphNode
  edges : List TextGraphEdge
  calculatedAt : Option ℚ
  isStale : Bool
  didRecalculate : Bool

/-- `getTextGraph(guildId, timeRange, maxAgeHours)`. -/
def getTextGraph (now : ℚ) (lastCalculated : Option ℚ)
    (connections : List TextConnection) (maxAgeHours : ℚ) : TextGraphResult :=
  let isStale : Bool :=
    match lastCalculated with
    | none => true
    | some t => decide (now - t > maxAgeHours * 60 * 60 * 1000)
  let g := transformToTextGraph connections
  { nodes := g.1, edges := g.2,
    calculatedAt := if isStale then some now else lastCalculated,
    isStale := isStale,
    didRecalculate := isStale }

/-- The staleness predicate both graph getters and the combined-friends
cache check implement: stale when the timestamp is absent or strictly
older than `maxAgeHours` hours. -/
def staleSpec (now : ℚ) (lastCalculated : Option ℚ) (maxAgeHours : ℚ) : Prop :=
  lastCalculated = none ∨
    ∃ t, lastCalculated = some t ∧ now - t > maxAgeHours * 60 * 60 * 1000

/-! ### Recompute operations (`calculateTextConnections`,
`calculateVoiceConnections`) -/

/-- What `calculateTextConnections` did: the pre-aggregation RPC, or the
client-side fallback with the rows it inserts. -/
inductive TextCalcOutcome where
  | rpc : TextCalcOutcome
  | clientFallback : List TextConnectionRow → TextCalcOutcome

/-- `calculateTextConnections`: try the `calculate_text_connections`
RPC; if it errors, fall back to `calculateTextConnectionsClientSide`
(text-connections.ts lines 102-113). The fallback itself throws only
when its own messages query fails. -/
def calculateTextConnections (rpcResult : Except Unit Unit)
    (messagesQuery : Except Unit (List Msg)) : Except Unit TextCalcOutcome :=
  match rpcResult with
  | .ok _ => .ok .rpc
  | .error _ =>
    match messagesQuery with
    | .error e => .error e
    | .ok messages => .ok (.clientFallback (textConnectionRows messages))

/-- `calculateVoiceConnections`: call the `calculate_voice_connections`
RPC and `if (error) throw error` (voice-connections.ts lines 20-33);
there is no fallback. -/
def calculateVoiceConnections (rpcResult : Except Unit Unit) : Except Unit Unit :=
  match rpcResult with
  | .error e => .error e
  | .ok _ => .ok ()

/-! ### Top friends (voice-only) -/

/-- A `voice_sessions` row as used by the active-session probe. -/
structure VoiceSessionRow where
  left_at : Option ℚ

/-- `hasActiveVoiceSessions`: counts rows with `left_at` null. -/
def hasActiveVoiceSessions (sessions : List VoiceSessionRow) : Bool :=
  decide (0 < (sessions.filter (fun s => s.left_at.isNone)).length)

structure TopFriend where
  user_id : String
  username : Option String
  display_name : Option String
  avatar_url : Option String
  shared_seconds : ℚ
  session_count : ℕ

/-- The `.or(user_id_1.eq.userId,user_id_2.eq.userId)` row filter. -/
def connInvolves (userId u1 u2 : String) : Bool :=
  decide (u1 = userId) || decide (u2 = userId)

/-- The datastore's `order(shared_seconds, descending)` as a comparator. -/
def sharedSecondsDesc (a b : VoiceConnection) : Bool :=
  decide (b.shared_seconds ≤ a.shared_seconds)

structure TopFriendsRun where
  recalculatedAllCache : Bool
  result : List TopFriend

/-- `getTopFriends` (voice-connections.ts lines 191-227): force-refresh
the `all` cache when any session is active, then read this user's
connections ordered by shared seconds and normalize so the friend is the
other user. -/
def getTopFriends (sessions : List VoiceSessionRow)
    (connections : List VoiceConnection) (userId : String) (limit : ℕ) :
    TopFriendsRun :=
  let hasActiveSessions := hasActiveVoiceSessions sessions
  let rows := (sortByComparator sharedSecondsDesc
    (connections.filter (fun c => connInvolves userId c.user_id_1 c.user_id_2))).take limit
  { recalculatedAllCache := hasActiveSessions,
    result := rows.map (fun conn =>
      if conn.user_id_1 = userId then
        ⟨conn.user_id_2, conn.username_2, conn.display_name_2, conn.avatar_url_2,
          conn.shared_seconds, conn.session_count⟩
      else
        ⟨conn.user_id_1, conn.username_1, conn.display_name_1, conn.avatar_url_1,
          conn.shared_seconds, conn.session_count⟩) }

/-! ### Combined top friends (`getCombinedTopFriends`,
text-connections.ts lines 487-643) -/

/-- A `voice_connections` base-table row as used by the combined ranker. -/
structure VoiceConnRow where
  user_id_1 : String
  user_id_2 : String
  shared_seconds : ℚ
  session_count : ℕ

/-- A `text_connections` base-table row as used by the combined ranker. -/
structure TextConnRow where
  user_id_1 : String
  user_id_2 : String
  interaction_score : ℚ
  shared_channel_count : ℕ

/-- A `members` row carrying display info. -/
structure MemberInfo where
  user_id : String
  username : Option String
  display_name : Option String
  avatar_url : Option String

structure CombinedFriend where
  user_id : String
  username : Option String
  display_name : Option String
  avatar_url : Option String
  voice_seconds : ℚ
  voice_sessions : ℕ
  text_interaction_score : ℚ
  text_shared_channels : ℕ
  combined_score : ℚ

/-- `isUser1 ? conn.user_id_2 : conn.user_id_1`. -/
def friendOf (userId u1 u2 : String) : String := if u1 = userId then u2 else u1

/-- The zeroed `friendMap` default entry. -/
def emptyFriend (friendId : String) : CombinedFriend :=
  ⟨friendId, none, none, none, 0, 0, 0, 0, 0⟩

/-- One iteration of the voice-connection loop: record the connection's
shared seconds and session count on the friend's entry. -/
def processVoiceConn (userId : String) (m : List (String × CombinedFriend))
    (conn : VoiceConnRow) : List (String × CombinedFriend) :=
  let friendId := friendOf userId conn.user_id_1 conn.user_id_2
  let existing := (alistLookup friendId m).getD (emptyFriend friendId)
  alistSet friendId
    { existing with
      voice_seconds := conn.shared_seconds,
      voice_sessions := conn.session_count } m

/-- One iteration of the text-connection loop: record the connection's
interaction score and shared channel count on the friend's entry. -/
def processTextConn (userId : String) (m : List (String × CombinedFriend))
    (conn : TextConnRow) : List (String × CombinedFriend) :=
  let friendId := friendOf userId conn.user_id_1 conn.user_id_2
  let existing := (alistLookup friendId m).getD (emptyFriend friendId)
  alistSet friendId
    { existing with
      text_interaction_score := conn.interaction_score,
      text_shared_channels := conn.shared_channel_count } m

/-- The friend ids this user's rows contribute, in row order. -/
def voiceFriendIds (userId : String) (rows : List VoiceConnRow) : List String :=
  (rows.filter (fun c => connInvolves userId c.user_id_1 c.user_id_2)).map
    (fun c => friendOf userId c.user_id_1 c.user_id_2)

/-- The friend ids this user's text rows contribute, in row order. -/
def textFriendIds (userId : String) (rows : List TextConnRow) : List String :=
  (rows.filter (fun c => connInvolves userId c.user_id_1 c.user_id_2)).map
    (fun c => friendOf userId c.user_id_1 c.user_id_2)

/-- The `friendMap` after both processing loops; `none` in place of a
row list is a failed (skipped) query. -/
def combinedFriendMap (userId : String) (voiceData : Option (List VoiceConnRow))
    (textData : Option (List TextConnRow)) : List (String × CombinedFriend) :=
  let m1 : List (String × CombinedFriend) :=
    match voiceData with
    | some rows =>
      (rows.filter (fun c => connInvolves userId c.user_id_1 c.user_id_2)).foldl
        (processVoiceConn userId) []
    | none => []
  match textData with
  | some rows =>
    (rows.filter (fun c => connInvolves userId c.user_id_1 c.user_id_2)).foldl
      (processTextConn userId) m1
  | none => m1

/-- JavaScript `x || null` on a nullable string (empty string is falsy). -/
def jsOrNull (o : Option String) : Option String :=
  match o with
  | none => none
  | some s => if s = "" then none else some s

/-- `new Map(members.map((m) => [m.user_id, m]))`. -/
def memberMapOf (members : List MemberInfo) : List (String × MemberInfo) :=
  members.foldl (fun acc mi => alistSet mi.user_id mi acc) []

/-- The scoring-and-member-info `map` over `friendMap.values()`:
`combinedScore = voiceHours * voiceWeight + (textScore / 100) *
textWeight`, rounded to two decimals. -/
def scoreFriend (weight : ServerActivityWeight)
    (memberMap : List (String × MemberInfo)) (friend : CombinedFriend) :
    CombinedFriend :=
  let member := alistLookup friend.user_id memberMap
  let voiceHours := friend.voice_seconds / 3600
  let textContribution := (friend.text_interaction_score / 100) * weight.textWeight
  let voiceContribution := voiceHours * weight.voiceWeight
  let combinedScore := voiceContribution + textContribution
  { friend with
    username := jsOrNull (member.bind MemberInfo.username),
    display_name := jsOrNull (member.bind MemberInfo.display_name),
    avatar_url := jsOrNull (member.bind MemberInfo.avatar_url),
    combined_score := round2 combinedScore }

/-- The sort comparator of the combined ranker: descending
`combined_score`, ties by descending `voice_seconds`; `combinedLe a b`
states that the comparator orders `a` no later than `b`. -/
def combinedLe (a b : CombinedFriend) : Bool :=
  if b.combined_score ≠ a.combined_score then decide (b.combined_score < a.combined_score)
  else decide (b.voice_seconds ≤ a.voice_seconds)

/-- The scored friend candidates, in `friendMap` insertion order. -/
def combinedCandidates (weight : ServerActivityWeight) (userId : String)
    (voiceData : Option (List VoiceConnRow)) (textData : Option (List TextConnRow))
    (members : List MemberInfo) : List CombinedFriend :=
  (combinedFriendMap userId voiceData textData).map
    (fun p => scoreFriend weight (memberMapOf members) p.2)

/-- The ranking part of `getCombinedTopFriends`: early-return `[]` when
no friends, otherwise score, sort and truncate. -/
def combinedFriendsRanking (weight : ServerActivityWeight) (userId : String)
    (voiceData : Option (List VoiceConnRow)) (textData : Option (List TextConnRow))
    (members : List MemberInfo) (limit : ℕ) : List CombinedFriend :=
  if (combinedFriendMap userId voiceData textData).isEmpty then []
  else
    (sortByComparator combinedLe
      (combinedCandidates weight userId voiceData textData members)).take limit

structure CombinedTopFriendsRun where
  recalculatedVoiceConnections : Bool
  result : List CombinedFriend

/-- `if (!error) data = ...`: the rows of a successful query, `none`
when the query failed. -/
def queryToOption {α : Type} (q : Except Unit α) : Option α :=
  match q with
  | .ok a => some a
  | .error _ => none

/-- `getCombinedTopFriends` end to end: the age-based voice-cache check
(`maxAgeHours = 24`), the forced recompute when stale (whose RPC error
propagates), the two connection queries — the text query's failure is
swallowed — and the ranking. -/
def getCombinedTopFriends (now : ℚ) (voiceCacheCalculatedAt : Option ℚ)
    (voiceRpc : Except Unit Unit) (weight : ServerActivityWeight) (userId : String)
    (voiceQuery : Except Unit (List VoiceConnRow))
    (textQuery : Except Unit (List TextConnRow))
    (members : List MemberInfo) (limit : ℕ) : Except Unit CombinedTopFriendsRun :=
  let maxAgeHours : ℚ := 24
  let isStale : Bool :=
    match voiceCacheCalculatedAt with
    | none => true
    | some t => decide (now - t > maxAgeHours * 60 * 60 * 1000)
  let voiceData : Option (List VoiceConnRow) := queryToOption voiceQuery
  let textData : Option (List TextConnRow) := queryToOption textQuery
  if isStale then
    match calculateVoiceConnections voiceRpc with
    | .error e => .error e
    | .ok _ =>
      .ok ⟨true, combinedFriendsRanking weight userId voiceData textData members limit⟩
  else
    .ok ⟨false, combinedFriendsRanking weight userId voiceData textData members limit⟩

theorem foldl_preserve {α β : Type} {P : β → Prop} {step : β → α → β}
    (h : ∀ b a, P b → P (step b a)) :
    ∀ (l : List α) (b : β), P b → P (List.foldl step b l) := by
  intro l
  induction l with
  | nil => intro b hb; simpa using hb
  | cons a rest ih =>
    intro b hb
    simp only [List.foldl_cons]
    exact ih _ (h b a hb)

/-- Every `friendMap` entry's `user_id` field equals its key. -/
def FriendIdsMatch (m : List (String × CombinedFriend)) : Prop :=
  ∀ p ∈ m, p.2.user_id = p.1

theorem friendIdsMatch_processVoiceConn {m : List (String × CombinedFriend)}
    (h : FriendIdsMatch m) (userId : String) (conn : VoiceConnRow) :
    FriendIdsMatch (processVoiceConn userId m conn) := by
  intro p hp
  simp only [processVoiceConn] at hp
  rcases mem_alistSet hp with hnew | hold
  · subst hnew
    cases hl : alistLookup (friendOf userId conn.user_id_1 conn.user_id_2) m with
    | some e =>
      simp only [hl, Option.getD_some]
      have he := h _ (mem_of_alistLookup_eq_some hl)
      simpa using he
    | none =>
      simp only [hl, Option.getD_none]
      rfl
  · exact h p hold

theorem friendIdsMatch_processTextConn {m : List (String × CombinedFriend)}
    (h : FriendIdsMatch m) (userId : String) (conn : TextConnRow) :
    FriendIdsMatch (processTextConn userId m conn) := by
  intro p hp
  simp only [processTextConn] at hp
  rcases mem_alistSet hp with hnew | hold
  · subst hnew
    cases hl : alistLookup (friendOf userId conn.user_id_1 conn.user_id_2) m with
    | some e =>
      simp only [hl, Option.getD_some]
      have he := h _ (mem_of_alistLookup_eq_some hl)
      simpa using he
    | none =>
      simp only [hl, Option.getD_none]
      rfl
  · exact h p hold

theorem friendIdsMatch_combinedFriendMap (userId : String)
    (voiceData : Option (List VoiceConnRow)) (textData : Option (List TextConnRow)) :
    FriendIdsMatch (combinedFriendMap userId voiceData textData) := by
  have hbase : FriendIdsMatch [] := by intro p hp; simp at hp
  have hv : ∀ rows : List VoiceConnRow, FriendIdsMatch
      (rows.foldl (processVoiceConn userId) []) := by
    intro rows
    exact @foldl_preserve _ _ FriendIdsMatch (processVoiceConn userId)
      (fun b a hb => friendIdsMatch_processVoiceConn hb userId a) rows [] hbase
  cases voiceData with
  | none =>
    cases textData with
    | none => simpa [combinedFriendMap] using hbase
    | some trows =>
      simp only [combinedFriendMap]
      exact @foldl_preserve _ _ FriendIdsMatch (processTextConn userId)
        (fun b a hb => friendIdsMatch_processTextConn hb userId a) _ _ hbase
  | some vrows =>
    cases textData with
    | none =>
      simp only [combinedFriendMap]
      exact hv _
    | some trows =>
      simp only [combinedFriendMap]
      exact @foldl_preserve _ _ FriendIdsMatch (processTextConn userId)
        (fun b a hb => friendIdsMatch_processTextConn hb userId a) _ _ (hv _)

theorem keys_nodup_combinedFriendMap (userId : String)
    (voiceData : Option (List VoiceConnRow)) (textData : Option (List TextConnRow)) :
    (alistKeys (combinedFriendMap userId voiceData textData)).Nodup := by
  have hbase : (alistKeys ([] : List (String × CombinedFriend))).Nodup := by
    simp [alistKeys]
  have hvstep : ∀ (b : List (String × CombinedFriend)) (a : VoiceConnRow),
      (alistKeys b).Nodup → (alistKeys (processVoiceConn userId b a)).Nodup := by
    intro b a hb
    simp only [processVoiceConn]
    exact alistKeys_nodup_alistSet _ _ _ hb
  have htstep : ∀ (b : List (String × CombinedFriend)) (a : TextConnRow),
      (alistKeys b).Nodup → (alistKeys (processTextConn userId b a)).Nodup := by
    intro b a hb
    simp only [processTextConn]
    exact alistKeys_nodup_alistSet _ _ _ hb
  cases voiceData with
  | none =>
    cases textData with
    | none => simpa [combinedFriendMap] using hbase
    | some trows =>
      simp only [combinedFriendMap]
      exact @foldl_preserve _ _ (fun m => (alistKeys m).Nodup) (processTextConn userId)
        htstep _ _ hbase
  | some vrows =>
    cases textData with
    | none =>
      simp only [combinedFriendMap]
      exact @foldl_preserve _ _ (fun m => (alistKeys m).Nodup) (processVoiceConn userId)
        hvstep _ _ hbase
    | some trows =>
      simp only [combinedFriendMap]
      exact @foldl_preserve _ _ (fun m => (alistKeys m).Nodup) (processTextConn userId)
        htstep _ _
        (@foldl_preserve _ _ (fun m => (alistKeys m).Nodup) (processVoiceConn userId)
          hvstep _ _ hbase)

theorem lookup_voiceFold_eq_none_iff (userId f : String) (rows : List VoiceConnRow)
    (m : List (String × CombinedFriend)) :
    alistLookup f (rows.foldl (processVoiceConn userId) m) = none ↔
      alistLookup f m = none ∧
        f ∉ rows.map (fun c => friendOf userId c.user_id_1 c.user_id_2) := by
  induction rows generalizing m with
  | nil => simp
  | cons c rest ih =>
    simp only [List.foldl_cons, List.map_cons, List.mem_cons]
    rw [ih]
    simp only [processVoiceConn, alistLookup_alistSet_eq_none_iff]
    constructor
    · rintro ⟨⟨h1, h2⟩, h3⟩
      exact ⟨h1, fun hor => hor.elim (fun he => h2 he.symm) h3⟩
    · rintro ⟨h1, h2⟩
      exact ⟨⟨h1, fun he => h2 (Or.inl he.symm)⟩, fun he => h2 (Or.inr he)⟩

theorem lookup_textFold_eq_none_iff (userId f : String) (rows : List TextConnRow)
    (m : List (String × CombinedFriend)) :
    alistLookup f (rows.foldl (processTextConn userId) m) = none ↔
      alistLookup f m = none ∧
        f ∉ rows.map (fun c => friendOf userId c.user_id_1 c.user_id_2) := by
  induction rows generalizing m with
  | nil => simp
  | cons c rest ih =>
    simp only [List.foldl_cons, List.map_cons, List.mem_cons]
    rw [ih]
    simp only [processTextConn, alistLookup_alistSet_eq_none_iff]
    constructor
    · rintro ⟨⟨h1, h2⟩, h3⟩
      exact ⟨h1, fun hor => hor.elim (fun he => h2 he.symm) h3⟩
    · rintro ⟨h1, h2⟩
      exact ⟨⟨h1, fun he => h2 (Or.inl he.symm)⟩, fun he => h2 (Or.inr he)⟩

/-- Entries built by the voice loop alone have zeroed text metrics. -/
def TextFieldsZero (m : List (String × CombinedFriend)) : Prop :=
  ∀ p ∈ m, p.2.text_interaction_score = 0 ∧ p.2.text_shared_channels = 0

theorem textFieldsZero_processVoiceConn {m : List (String × CombinedFriend)}
    (h : TextFieldsZero m) (userId : String) (conn : VoiceConnRow) :
    TextFieldsZero (processVoiceConn userId m conn) := by
  intro p hp
  simp only [processVoiceConn] at hp
  rcases mem_alistSet hp with hnew | hold
  · subst hnew
    cases hl : alistLookup (friendOf userId conn.user_id_1 conn.user_id_2) m with
    | some e =>
      simp only [hl, Option.getD_some]
      have he := h _ (mem_of_alistLookup_eq_some hl)
      simpa using he
    | none =>
      simp only [hl, Option.getD_none]
      exact ⟨rfl, rfl⟩
  · exact h p hold

theorem textFieldsZero_voiceFold (userId : String) (rows : List VoiceConnRow) :
    TextFieldsZero (rows.foldl (processVoiceConn userId) []) := by
  have hbase : TextFieldsZero [] := by intro p hp; simp at hp
  exact @foldl_preserve _ _ TextFieldsZero (processVoiceConn userId)
    (fun b a hb => textFieldsZero_processVoiceConn hb userId a) rows [] hbase

theorem lookup_textFold_not_touched (userId f : String) (rows : List TextConnRow)
    (m : List (String × CombinedFriend))
    (h : f ∉ rows.map (fun c => friendOf userId c.user_id_1 c.user_id_2)) :
    alistLookup f (rows.foldl (processTextConn userId) m) = alistLookup f m := by
  induction rows generalizing m with
  | nil => simp
  | cons c rest ih =>
    simp only [List.map_cons, List.mem_cons] at h
    push_neg at h
    simp only [List.foldl_cons]
    rw [ih _ h.2]
    simp only [processTextConn]
    exact alistLookup_alistSet_ne _ _ (fun he => h.1 he.symm)

theorem processTextConn_voice_view (userId f : String)
    (m : List (String × CombinedFriend)) (conn : TextConnRow) :
    ((alistLookup f (processTextConn userId m conn)).map
        CombinedFriend.voice_seconds).getD 0 =
      ((alistLookup f m).map CombinedFriend.voice_seconds).getD 0 ∧
    ((alistLookup f (processTextConn userId m conn)).map
        CombinedFriend.voice_sessions).getD 0 =
      ((alistLookup f m).map CombinedFriend.voice_sessions).getD 0 := by
  by_cases hf : friendOf userId conn.user_id_1 conn.user_id_2 = f
  · subst hf
    cases hl : alistLookup (friendOf userId conn.user_id_1 conn.user_id_2) m with
    | some e => simp [processTextConn, hl, alistLookup_alistSet_self]
    | none => simp [processTextConn, hl, alistLookup_alistSet_self, emptyFriend]
  · constructor
    · simp [processTextConn, alistLookup_alistSet_ne _ _ hf]
    · simp [processTextConn, alistLookup_alistSet_ne _ _ hf]

theorem textFold_voice_view (userId f : String) (rows : List TextConnRow)
    (m : List (String × CombinedFriend)) :
    ((alistLookup f (rows.foldl (processTextConn userId) m)).map
        CombinedFriend.voice_seconds).getD 0 =
      ((alistLookup f m).map CombinedFriend.voice_seconds).getD 0 ∧
    ((alistLookup f (rows.foldl (processTextConn userId) m)).map
        CombinedFriend.voice_sessions).getD 0 =
      ((alistLookup f m).map CombinedFriend.voice_sessions).getD 0 := by
  induction rows generalizing m with
  | nil => exact ⟨rfl, rfl⟩
  | cons c rest ih =>
    simp only [List.foldl_cons]
    have hstep := processTextConn_voice_view userId f m c
    have hrest := ih (processTextConn userId m c)
    exact ⟨hrest.1.trans hstep.1, hrest.2.trans hstep.2⟩

theorem scoreFriend_fields (weight : ServerActivityWeight)
    (memberMap : List (String × MemberInfo)) (friend : CombinedFriend) :
    (scoreFriend weight memberMap friend).user_id = friend.user_id ∧
    (scoreFriend weight memberMap friend).voice_seconds = friend.voice_seconds ∧
    (scoreFriend weight memberMap friend).voice_sessions = friend.voice_sessions ∧
    (scoreFriend weight memberMap friend).text_interaction_score =
      friend.text_interaction_score ∧
    (scoreFriend weight memberMap friend).text_shared_channels =
      friend.text_shared_channels ∧
    (scoreFriend weight memberMap friend).combined_score =
      round2 ((friend.voice_seconds / 3600) * weight.voiceWeight +
        (friend.text_interaction_score / 100) * weight.textWeight) := by
  simp [scoreFriend]

theorem combinedLe_iff (a b : CombinedFriend) :
    combinedLe a b = true ↔
      b.combined_score < a.combined_score ∨
        (b.combined_score = a.combined_score ∧ b.voice_seconds ≤ a.voice_seconds) := by
  rw [combinedLe]
  by_cases h : b.combined_score = a.combined_score
  · rw [if_neg (fun hne => hne h)]
    simp [h, lt_irrefl]
  · rw [if_pos h]
    simp [h]

theorem combinedLe_total (a b : CombinedFriend) :
    combinedLe a b = true ∨ combinedLe b a = true := by
  rw [combinedLe_iff, combinedLe_iff]
  rcases lt_trichotomy a.combined_score b.combined_score with h | h | h
  · exact Or.inr (Or.inl h)
  · rcases le_total a.voice_seconds b.voice_seconds with h2 | h2
    · exact Or.inr (Or.inr ⟨h, h2⟩)
    · exact Or.inl (Or.inr ⟨h.symm, h2⟩)
  · exact Or.inl (Or.inl h)

theorem combinedLe_trans (a b c : CombinedFriend) (hab : combinedLe a b = true)
    (hbc : combinedLe b c = true) : combinedLe a c = true := by
  rw [combinedLe_iff] at hab hbc ⊢
  rcases hab with hab | ⟨hab1, hab2⟩
  · rcases hbc with hbc | ⟨hbc1, hbc2⟩
    · exact Or.inl (hbc.trans hab)
    · exact Or.inl (hbc1 ▸ hab)
  · rcases hbc with hbc | ⟨hbc1, hbc2⟩
    · exact Or.inl (hab1 ▸ hbc)
    · exact Or.inr ⟨hbc1.trans hab1, hbc2.trans hab2⟩

theorem getCombinedTopFriends_ok_elim {now : ℚ} {cacheAt : Option ℚ}
    {rpc : Except Unit Unit} {weight : ServerActivityWeight} {userId : String}
    {vq : Except Unit (List VoiceConnRow)} {tq : Except Unit (List TextConnRow)}
    {members : List MemberInfo} {limit : ℕ} {tr : CombinedTopFriendsRun}
    (h : getCombinedTopFriends now cacheAt rpc weight userId vq tq members limit =
      Except.ok tr) :
    (tr.recalculatedVoiceConnections = true ↔ staleSpec now cacheAt 24) ∧
    tr.result = combinedFriendsRanking weight userId (queryToOption vq)
      (queryToOption tq) members limit := by
  cases cacheAt with
  | none =>
    simp only [getCombinedTopFriends] at h
    cases rpc with
    | error e => simp [calculateVoiceConnections] at h
    | ok u =>
      simp only [calculateVoiceConnections] at h
      injection h with h2
      subst h2
      exact ⟨by simp [staleSpec], rfl⟩
  | some t =>
    by_cases hgt : now - t > 24 * 60 * 60 * 1000
    · simp only [getCombinedTopFriends, decide_eq_true_eq, hgt, if_true] at h
      cases rpc with
      | error e => simp [calculateVoiceConnections] at h
      | ok u =>
        simp only [calculateVoiceConnections] at h
        injection h with h2
        subst h2
        refine ⟨?_, rfl⟩
        simp only [true_iff]
        exact Or.inr ⟨t, rfl, hgt⟩
    · simp only [getCombinedTopFriends, hgt, decide_eq_false, if_false] at h
      injection h with h2
      subst h2
      refine ⟨?_, rfl⟩
      constructor
      · intro hfalse
        simp at hfalse
      · rintro (hnone | ⟨t2, ht2, hgt2⟩)
        · exact absurd hnone (by simp)
        · injection ht2 with ht3
          subst ht3
          exact absurd hgt2 hgt

theorem getCombinedTopFriends_rpc_ok (now : ℚ) (cacheAt : Option ℚ)
    (weight : ServerActivityWeight) (userId : String)
    (vq : Except Unit (List VoiceConnRow)) (tq : Except Unit (List TextConnRow))
    (members : List MemberInfo) (limit : ℕ) :
    ∃ b : Bool, getCombinedTopFriends now cacheAt (Except.ok ()) weight userId
        vq tq members limit =
      Except.ok ⟨b, combinedFriendsRanking weight userId (queryToOption vq)
        (queryToOption tq) members limit⟩ := by
  cases cacheAt with
  | none =>
    refine ⟨true, ?_⟩
    simp [getCombinedTopFriends, calculateVoiceConnections]
  | some t =>
    by_cases hgt : now - t > 24 * 60 * 60 * 1000
    · refine ⟨true, ?_⟩
      simp [getCombinedTopFriends, calculateVoiceConnections, hgt]
    · refine ⟨false, ?_⟩
      simp [getCombinedTopFriends, hgt]

theorem combinedRanking_subset_candidates {weight : ServerActivityWeight}
    {userId : String} {vd : Option (List VoiceConnRow)} {td : Option (List TextConnRow)}
    {members : List MemberInfo} {limit : ℕ} {f : CombinedFriend}
    (h : f ∈ combinedFriendsRanking weight userId vd td members limit) :
    f ∈ combinedCandidates weight userId vd td members := by
  rw [combinedFriendsRanking] at h
  by_cases he : (combinedFriendMap userId vd td).isEmpty
  · rw [if_pos he] at h
    simp at h
  · rw [if_neg he] at h
    have h2 := List.mem_of_mem_take h
    exact (sortByComparator_perm combinedLe _).mem_iff.mp h2

/-! ### Claim theorems -/

/-- C5: `getServerActivityWeight` returns `textWeight = totalMessages /
(totalMessages + totalVoiceMinutes)` and `voiceWeight = 1 - textWeight`,
so the weights sum to 1 whenever the combined total is non-zero; when
both totals are zero it returns `{0.5, 0.5}`; and the weights are
invariant under uniformly scaling both totals by the same positive
constant. -/
theorem C5_activity_weight_normalization (M V : ℚ) :
    (M + V ≠ 0 →
      (getServerActivityWeight M V).textWeight = M / (M + V) ∧
      (getServerActivityWeight M V).voiceWeight =
        1 - (getServerActivityWeight M V).textWeight ∧
      (getServerActivityWeight M V).voiceWeight +
        (getServerActivityWeight M V).textWeight = 1) ∧
    (M = 0 → V = 0 →
      (getServerActivityWeight M V).voiceWeight = 0.5 ∧
      (getServerActivityWeight M V).textWeight = 0.5) ∧
    (∀ c : ℚ, 0 < c →
      (getServerActivityWeight (c * M) (c * V)).voiceWeight =
        (getServerActivityWeight M V).voiceWeight ∧
      (getServerActivityWeight (c * M) (c * V)).textWeight =
        (getServerActivityWeight M V).textWeight) := by
  refine ⟨?_, ?_, ?_⟩
  · intro h
    simp only [getServerActivityWeight, if_neg h]
    refine ⟨trivial, ?_, ?_⟩
    · field_simp
    · field_simp
      ring
  · intro hm hv
    subst hm
    subst hv
    norm_num [getServerActivityWeight]
  · intro c hc
    have hscale : c * M + c * V = c * (M + V) := by ring
    by_cases h : M + V = 0
    · have h2 : c * M + c * V = 0 := by rw [hscale, h, mul_zero]
      simp [getServerActivityWeight, h, h2]
    · have h2 : c * M + c * V ≠ 0 := by
        rw [hscale]
        exact mul_ne_zero (ne_of_gt hc) h
      simp only [getServerActivityWeight, if_neg h, if_neg h2]
      constructor
      · rw [hscale, mul_div_mul_left _ _ (ne_of_gt hc)]
      · rw [hscale, mul_div_mul_left _ _ (ne_of_gt hc)]

/-- Witness for C5 at `(M, V) = (2, 6)`, the zero guild, and scale
factor 3. -/
theorem C5_activity_weight_normalization_witness :
    (getServerActivityWeight 2 6).textWeight = 2 / (2 + 6) ∧
    (getServerActivityWeight 2 6).voiceWeight +
      (getServerActivityWeight 2 6).textWeight = 1 ∧
    (getServerActivityWeight 0 0).voiceWeight = 0.5 ∧
    (getServerActivityWeight (3 * 2) (3 * 6)).voiceWeight =
      (getServerActivityWeight 2 6).voiceWeight := by
  have h1 := (C5_activity_weight_normalization 2 6).1 (by norm_num)
  have h2 := (C5_activity_weight_normalization 0 0).2.1 rfl rfl
  have h3 := (C5_activity_weight_normalization 2 6).2.2 3 (by norm_num)
  exact ⟨h1.1, h1.2.2, h2.1, h3.1⟩

/-- C3: in `getVoiceGraph` and `getTextGraph` the cache bucket is judged
stale exactly when the stored timestamp is absent or strictly older than
`maxAgeHours`; a recompute is triggered precisely then; the returned
`isStale` flag equals that judgment; and at the exact boundary
`now - calculatedAt = maxAgeHours` the bucket is not stale at either
check site. -/
theorem C3_cache_staleness (now maxAgeHours : ℚ) (lastCalculated : Option ℚ)
    (vconns : List VoiceConnection) (tconns : List TextConnection) :
    ((getVoiceGraph now lastCalculated vconns maxAgeHours).didRecalculate =
      (getVoiceGraph now lastCalculated vconns maxAgeHours).isStale) ∧
    ((getVoiceGraph now lastCalculated vconns maxAgeHours).isStale = true ↔
      staleSpec now lastCalculated maxAgeHours) ∧
    ((getTextGraph now lastCalculated tconns maxAgeHours).didRecalculate =
      (getTextGraph now lastCalculated tconns maxAgeHours).isStale) ∧
    ((getTextGraph now lastCalculated tconns maxAgeHours).isStale = true ↔
      staleSpec now lastCalculated maxAgeHours) ∧
    (∀ t, lastCalculated = some t → now - t = maxAgeHours * 60 * 60 * 1000 →
      (getVoiceGraph now lastCalculated vconns maxAgeHours).isStale = false ∧
      (getTextGraph now lastCalculated tconns maxAgeHours).isStale = false) := by
  cases lastCalculated with
  | none =>
    refine ⟨rfl, ?_, rfl, ?_, ?_⟩
    · simp [getVoiceGraph, staleSpec]
    · simp [getTextGraph, staleSpec]
    · intro t ht
      cases ht
  | some t0 =>
    refine ⟨rfl, ?_, rfl, ?_, ?_⟩
    · simp only [getVoiceGraph, staleSpec, decide_eq_true_eq]
      constructor
      · intro h
        exact Or.inr ⟨t0, rfl, h⟩
      · rintro (h | ⟨t1, ht1, h⟩)
        · cases h
        · injection ht1 with ht2
          subst ht2
          exact h
    · simp only [getTextGraph, staleSpec, decide_eq_true_eq]
      constructor
      · intro h
        exact Or.inr ⟨t0, rfl, h⟩
      · rintro (h | ⟨t1, ht1, h⟩)
        · cases h
        · injection ht1 with ht2
          subst ht2
          exact h
    · intro t ht heq
      injection ht with ht2
      subst ht2
      constructor
      · simp [getVoiceGraph, heq]
      · simp [getTextGraph, heq]

/-- Witness for C3: with `maxAgeHours = 24`, a timestamp exactly 24 hours
old is not stale, and a missing timestamp is stale. -/
theorem C3_cache_staleness_witness :
    (getVoiceGraph 86400000 (some 0) [] 24).isStale = false ∧
    (getTextGraph 86400000 (some 0) [] 24).isStale = false ∧
    (getVoiceGraph 0 none [] 24).isStale = true := by
  have h1 := (C3_cache_staleness 86400000 24 (some 0) [] []).2.2.2.2 0 rfl (by norm_num)
  have h2 := (C3_cache_staleness 0 24 none [] []).2.1.mpr (Or.inl rfl)
  exact ⟨h1.1, h1.2, h2⟩

/-- C8 counterexample: `calculateVoiceConnections` does not fall back
when its RPC fails — it propagates the error to the caller (`if (error)
throw error`), so the claim that both recompute operations silently fall
back is false. -/
theorem C8_counterexample :
    calculateVoiceConnections (Except.error ()) = Except.error () := rfl

/-- C8 (amended): `calculateTextConnections` does not propagate an RPC
failure — it silently falls back to the client-side computation (and
succeeds whenever its own messages query succeeds) — while
`calculateVoiceConnections` has no fallback and returns exactly its RPC
outcome, error included. -/
theorem C8_recompute_fallback (messages : List Msg) (r : Except Unit Unit) :
    calculateTextConnections (Except.error ()) (Except.ok messages) =
      Except.ok (TextCalcOutcome.clientFallback (textConnectionRows messages)) ∧
    calculateTextConnections (Except.ok ()) (Except.ok messages) =
      Except.ok TextCalcOutcome.rpc ∧
    calculateVoiceConnections r = r := by
  refine ⟨rfl, rfl, ?_⟩
  cases r with
  | ok u => cases u; rfl
  | error e => cases e; rfl

theorem combinedRun_fresh_empty_eval :
    getCombinedTopFriends 0 (some 0) (Except.ok ()) ⟨1, 0, 60, 0⟩ "alice"
        (Except.ok []) (Except.ok []) [] 5 =
      Except.ok ⟨false, []⟩ := by
  norm_num [getCombinedTopFriends, combinedFriendsRanking, combinedFriendMap,
    queryToOption]

/-- C4 counterexample: with one currently active voice session
(`left_at` null) but a voice-connections cache refreshed at the same
instant, `getCombinedTopFriends` does not recompute the `all` cache (its
recompute flag is `false`), contradicting the claim that an active
session forces a refresh in `getCombinedTopFriends` regardless of cache
age. -/
theorem C4_counterexample :
    hasActiveVoiceSessions [⟨none⟩] = true ∧
    getCombinedTopFriends 0 (some 0) (Except.ok ()) ⟨1, 0, 60, 0⟩ "alice"
        (Except.ok []) (Except.ok []) [] 5 = Except.ok ⟨false, []⟩ :=
  ⟨rfl, combinedRun_fresh_empty_eval⟩

/-- C4 (amended): `getTopFriends` force-refreshes the `all` voice cache
exactly when at least one voice session is active (`left_at` null),
regardless of cache age; `getCombinedTopFriends` instead recomputes
exactly when the voice cache timestamp is absent or strictly older than
24 hours, without consulting active sessions. -/
theorem C4_active_session_refresh (sessions : List VoiceSessionRow)
    (connections : List VoiceConnection) (userId : String) (limit : ℕ)
    (now : ℚ) (cacheAt : Option ℚ) (rpc : Except Unit Unit)
    (weight : ServerActivityWeight) (userId2 : String)
    (vq : Except Unit (List VoiceConnRow)) (tq : Except Unit (List TextConnRow))
    (members : List MemberInfo) (limit2 : ℕ) :
    ((getTopFriends sessions connections userId limit).recalculatedAllCache =
      hasActiveVoiceSessions sessions) ∧
    (∀ tr, getCombinedTopFriends now cacheAt rpc weight userId2 vq tq members limit2 =
        Except.ok tr →
      (tr.recalculatedVoiceConnections = true ↔ staleSpec now cacheAt 24)) := by
  refine ⟨rfl, ?_⟩
  intro tr htr
  exact (getCombinedTopFriends_ok_elim htr).1

/-- Witness for C4 (amended): a guild with one active session refreshes
in `getTopFriends`, while a fresh combined run does not recompute. -/
theorem C4_active_session_refresh_witness :
    ((getTopFriends [⟨none⟩] [] "alice" 5).recalculatedAllCache =
      hasActiveVoiceSessions [⟨none⟩]) ∧
    ((⟨false, ([] : List CombinedFriend)⟩ :
        CombinedTopFriendsRun).recalculatedVoiceConnections = true ↔
      staleSpec 0 (some 0) 24) := by
  have h := C4_active_session_refresh [⟨none⟩] [] "alice" 5 0 (some 0) (Except.ok ())
    ⟨1, 0, 60, 0⟩ "alice" (Except.ok []) (Except.ok []) [] 5
  exact ⟨h.1, h.2 _ combinedRun_fresh_empty_eval⟩

/-- C2: in the text interaction scorer, every processed in-channel
message pair changes the stored score of each pair key by exactly its
contribution: `1 - timeDiff / PROXIMITY_WINDOW_MS` for two distinct
users at most five minutes apart (1 at a zero gap, 1/2 at 2.5 minutes, 0
at exactly 5 minutes) and nothing for a same-user pair or a gap beyond
five minutes; a pair's total stored score is the sum of these
contributions over all qualifying ordered pairs, channel by channel. -/
theorem C2_proximity_scoring (messages : List Msg) (k channelId : String)
    (m1 m2 : ChMsg) (s : List (String × ScoreAcc)) :
    (interactionScoreAt k (scorePairStep channelId m1 m2 s) =
      interactionScoreAt k s + keyContribution k m1 m2) ∧
    (m1.user_id ≠ m2.user_id →
      |m2.created_at - m1.created_at| ≤ PROXIMITY_WINDOW_MS →
      pairContribution m1 m2 =
        1 - |m2.created_at - m1.created_at| / PROXIMITY_WINDOW_MS) ∧
    (|m2.created_at - m1.created_at| > PROXIMITY_WINDOW_MS →
      pairContribution m1 m2 = 0) ∧
    (m1.user_id = m2.user_id → pairContribution m1 m2 = 0) ∧
    (interactionScoreAt k (calculateTextConnectionScores messages) =
      ((groupByChannel messages).map (fun p => pairSum k p.2)).sum) ∧
    pairContribution ⟨"a", 0⟩ ⟨"b", 0⟩ = 1 ∧
    pairContribution ⟨"a", 0⟩ ⟨"b", 150000⟩ = 1 / 2 ∧
    pairContribution ⟨"a", 0⟩ ⟨"b", 300000⟩ = 0 := by
  refine ⟨interactionScoreAt_scorePairStep k channelId m1 m2 s, ?_, ?_, ?_,
    interactionScoreAt_calculateTextConnectionScores k messages, ?_, ?_, ?_⟩
  · intro hu ht
    rw [pairContribution, if_neg hu, if_neg (not_lt.mpr ht)]
  · intro ht
    rw [pairContribution]
    by_cases hu : m1.user_id = m2.user_id
    · rw [if_pos hu]
    · rw [if_neg hu, if_pos ht]
  · intro hu
    rw [pairContribution, if_pos hu]
  · have hab : ("a" : String) ≠ "b" := by decide
    norm_num [pairContribution, PROXIMITY_WINDOW_MS, hab]
  · have hab : ("a" : String) ≠ "b" := by decide
    norm_num [pairContribution, PROXIMITY_WINDOW_MS, hab, abs_of_nonneg]
  · have hab : ("a" : String) ≠ "b" := by decide
    norm_num [pairContribution, PROXIMITY_WINDOW_MS, hab, abs_of_nonneg]

/-- Witness for C2: the proximity formula evaluated at a 2.5-minute gap
between distinct users. -/
theorem C2_proximity_scoring_witness :
    pairContribution ⟨"a", 0⟩ ⟨"b", 150000⟩ =
      1 - |(150000 : ℚ) - 0| / PROXIMITY_WINDOW_MS := by
  have h := (C2_proximity_scoring [] "a:b" "general" ⟨"a", 0⟩ ⟨"b", 150000⟩ []).2.1
    (by decide) (by norm_num [PROXIMITY_WINDOW_MS, abs_of_nonneg])
  simpa using h

/-- C6: the pair-key normalizer is symmetric — `canonPair`/`canonKey`
give the same canonical `(lo, hi)` pair and `"lo:hi"` key for both
argument orders, with `lo < hi` in JavaScript string order for distinct
users; the accumulation step is invariant under swapping the two users'
roles between the two messages; and every entry of the computed score
map is stored under its canonical key (so no pair is ever stored in both
orders). -/
theorem C6_pair_key_symmetry (a b channelId u v : String) (t1 t2 : ℚ)
    (s : List (String × ScoreAcc)) (messages : List Msg) :
    (canonPair a b = canonPair b a ∧ canonKey a b = canonKey b a) ∧
    (a ≠ b → jsStrLt (canonPair a b).1 (canonPair a b).2 = true) ∧
    (canonKey a b = (canonPair a b).1 ++ ":" ++ (canonPair a b).2) ∧
    (scorePairStep channelId ⟨u, t1⟩ ⟨v, t2⟩ s =
      scorePairStep channelId ⟨v, t1⟩ ⟨u, t2⟩ s) ∧
    (∀ p ∈ calculateTextConnectionScores messages,
      jsStrLt p.2.user_id_1 p.2.user_id_2 = true ∧
      p.1 = p.2.user_id_1 ++ ":" ++ p.2.user_id_2) := by
  refine ⟨⟨canonPair_comm a b, canonKey_comm a b⟩, ?_, rfl,
    scorePairStep_user_swap channelId u v t1 t2 s, ?_⟩
  · intro h
    exact canonPair_fst_lt_snd h
  · exact canonicalEntries_calculateTextConnectionScores messages

/-- Witness for C6 at the distinct users `"alice"` and `"bob"`. -/
theorem C6_pair_key_symmetry_witness :
    jsStrLt (canonPair "bob" "alice").1 (canonPair "bob" "alice").2 = true := by
  exact (C6_pair_key_symmetry "bob" "alice" "general" "u" "v" 0 0 [] []).2.1
    (by decide)

theorem transformToGraph_node_mem_iff (conns : List VoiceConnection) (u : String) :
    (∃ n ∈ (transformToGraph conns).1, n.id = u) ↔
      ∃ c ∈ conns, c.user_id_1 = u ∨ c.user_id_2 = u := by
  have hids : NodeIds (transformToGraphGo conns []).1 :=
    nodeIds_transformToGraphGo (by intro p hp; simp at hp) conns
  have hnone := transformToGraphGo_lookup_eq_none_iff u conns []
  constructor
  · rintro ⟨n, hn, hid⟩
    simp only [transformToGraph] at hn
    obtain ⟨p, hp, hps⟩ := List.mem_map.mp hn
    have hpu : p.1 = u := by
      rw [← hid, ← hps]
      exact (hids p hp).symm
    have hkey : u ∈ alistKeys (transformToGraphGo conns []).1 := by
      rw [← hpu]
      exact List.mem_map.mpr ⟨p, hp, rfl⟩
    have hlook : ¬ alistLookup u (transformToGraphGo conns []).1 = none := by
      rw [alistLookup_eq_none_iff]
      exact fun hc => hc hkey
    rw [hnone] at hlook
    have hnotall : ¬ ∀ c ∈ conns, c.user_id_1 ≠ u ∧ c.user_id_2 ≠ u :=
      fun hall => hlook ⟨rfl, hall⟩
    push_neg at hnotall
    obtain ⟨c, hc, hcu⟩ := hnotall
    by_cases h1 : c.user_id_1 = u
    · exact ⟨c, hc, Or.inl h1⟩
    · exact ⟨c, hc, Or.inr (hcu h1)⟩
  · rintro ⟨c, hc, hcu⟩
    have hlook : ¬ alistLookup u (transformToGraphGo conns []).1 = none := by
      rw [hnone]
      rintro ⟨h1, hall⟩
      have h2 := hall c hc
      rcases hcu with hcu | hcu
      · exact h2.1 hcu
      · exact h2.2 hcu
    cases hl : alistLookup u (transformToGraphGo conns []).1 with
    | none => exact absurd hl hlook
    | some n0 =>
      have hmem := mem_of_alistLookup_eq_some hl
      refine ⟨n0, ?_, ?_⟩
      · simp only [transformToGraph]
        exact List.mem_map.mpr ⟨(u, n0), hmem, rfl⟩
      · exact hids _ hmem

theorem transformToGraph_node_totals (conns : List VoiceConnection) :
    ∀ n ∈ (transformToGraph conns).1,
      n.totalConnections = (conns.map (vAppearances n.id)).sum ∧
      n.totalSharedTime = (conns.map (vTimeShare n.id)).sum := by
  intro n hn
  have hids : NodeIds (transformToGraphGo conns []).1 :=
    nodeIds_transformToGraphGo (by intro p hp; simp at hp) conns
  have hnd : (alistKeys (transformToGraphGo conns []).1).Nodup :=
    transformToGraphGo_keys_nodup (by simp [alistKeys]) conns
  simp only [transformToGraph] at hn
  obtain ⟨p, hp, hps⟩ := List.mem_map.mp hn
  have hid : n.id = p.1 := by
    rw [← hps]
    exact hids p hp
  have hlook : alistLookup p.1 (transformToGraphGo conns []).1 = some p.2 :=
    alistLookup_eq_some_of_mem hnd hp
  constructor
  · have h1 := nodeConnAt_transformToGraphGo p.1 conns []
    have h2 : nodeConnAt p.1 (transformToGraphGo conns []).1 = p.2.totalConnections := by
      simp [nodeConnAt, hlook]
    rw [h2, show nodeConnAt p.1 ([] : List (String × VoiceGraphNode)) = 0 from rfl,
      zero_add] at h1
    rw [hid, ← hps]
    exact h1
  · have h1 := nodeTimeAt_transformToGraphGo p.1 conns []
    have h2 : nodeTimeAt p.1 (transformToGraphGo conns []).1 = p.2.totalSharedTime := by
      simp [nodeTimeAt, hlook]
    rw [h2, show nodeTimeAt p.1 ([] : List (String × VoiceGraphNode)) = 0 from rfl,
      zero_add] at h1
    rw [hid, ← hps]
    exact h1

theorem transformToTextGraph_node_mem_iff (conns : List TextConnection) (u : String) :
    (∃ n ∈ (transformToTextGraph conns).1, n.id = u) ↔
      ∃ c ∈ conns, c.user_id_1 = u ∨ c.user_id_2 = u := by
  have hids : TextNodeIds (transformToTextGraphGo conns []).1 :=
    textNodeIds_transformToTextGraphGo (by intro p hp; simp at hp) conns
  have hnone := transformToTextGraphGo_lookup_eq_none_iff u conns []
  constructor
  · rintro ⟨n, hn, hid⟩
    simp only [transformToTextGraph] at hn
    obtain ⟨p, hp, hps⟩ := List.mem_map.mp hn
    have hpu : p.1 = u := by
      rw [← hid, ← hps]
      exact (hids p hp).symm
    have hkey : u ∈ alistKeys (transformToTextGraphGo conns []).1 := by
      rw [← hpu]
      exact List.mem_map.mpr ⟨p, hp, rfl⟩
    have hlook : ¬ alistLookup u (transformToTextGraphGo conns []).1 = none := by
      rw [alistLookup_eq_none_iff]
      exact fun hc => hc hkey
    rw [hnone] at hlook
    have hnotall : ¬ ∀ c ∈ conns, c.user_id_1 ≠ u ∧ c.user_id_2 ≠ u :=
      fun hall => hlook ⟨rfl, hall⟩
    push_neg at hnotall
    obtain ⟨c, hc, hcu⟩ := hnotall
    by_cases h1 : c.user_id_1 = u
    · exact ⟨c, hc, Or.inl h1⟩
    · exact ⟨c, hc, Or.inr (hcu h1)⟩
  · rintro ⟨c, hc, hcu⟩
    have hlook : ¬ alistLookup u (transformToTextGraphGo conns []).1 = none := by
      rw [hnone]
      rintro ⟨h1, hall⟩
      have h2 := hall c hc
      rcases hcu with hcu | hcu
      · exact h2.1 hcu
      · exact h2.2 hcu
    cases hl : alistLookup u (transformToTextGraphGo conns []).1 with
    | none => exact absurd hl hlook
    | some n0 =>
      have hmem := mem_of_alistLookup_eq_some hl
      refine ⟨n0, ?_, ?_⟩
      · simp only [transformToTextGraph]
        exact List.mem_map.mpr ⟨(u, n0), hmem, rfl⟩
      · exact hids _ hmem

theorem transformToTextGraph_node_totals (conns : List TextConnection) :
    ∀ n ∈ (transformToTextGraph conns).1,
      n.totalConnections = (conns.map (tAppearances n.id)).sum ∧
      n.totalInteractionScore = (conns.map (tScoreShare n.id)).sum := by
  intro n hn
  have hids : TextNodeIds (transformToTextGraphGo conns []).1 :=
    textNodeIds_transformToTextGraphGo (by intro p hp; simp at hp) conns
  have hnd : (alistKeys (transformToTextGraphGo conns []).1).Nodup :=
    transformToTextGraphGo_keys_nodup (by simp [alistKeys]) conns
  simp only [transformToTextGraph] at hn
  obtain ⟨p, hp, hps⟩ := List.mem_map.mp hn
  have hid : n.id = p.1 := by
    rw [← hps]
    exact hids p hp
  have hlook : alistLookup p.1 (transformToTextGraphGo conns []).1 = some p.2 :=
    alistLookup_eq_some_of_mem hnd hp
  constructor
  · have h1 := textNodeConnAt_transformToTextGraphGo p.1 conns []
    have h2 : textNodeConnAt p.1 (transformToTextGraphGo conns []).1 =
        p.2.totalConnections := by
      simp [textNodeConnAt, hlook]
    rw [h2, show textNodeConnAt p.1 ([] : List (String × TextGraphNode)) = 0 from rfl,
      zero_add] at h1
    rw [hid, ← hps]
    exact h1
  · have h1 := textNodeScoreAt_transformToTextGraphGo p.1 conns []
    have h2 : textNodeScoreAt p.1 (transformToTextGraphGo conns []).1 =
        p.2.totalInteractionScore := by
      simp [textNodeScoreAt, hlook]
    rw [h2, show textNodeScoreAt p.1 ([] : List (String × TextGraphNode)) = 0 from rfl,
      zero_add] at h1
    rw [hid, ← hps]
    exact h1

/-- C7: both graph transformers emit exactly one edge per input
connection (the two canonical user ids plus the pair metric) and derive
nodes by folding — a node's `totalConnections` counts that user's
appearances across the connections and its metric total sums the
connection metric once per appearance; a user appearing in no connection
never appears as a node; and over `[AB:1800, BC:600]` the nodes are
`A(1, 1800), B(2, 2400), C(1, 600)` with edges
`[(A,B,1800), (B,C,600)]`. -/
theorem C7_graph_transform (vconns : List VoiceConnection)
    (tconns : List TextConnection) :
    ((transformToGraph vconns).2 = vconns.map (fun c =>
      (⟨c.user_id_1, c.user_id_2, c.shared_seconds, c.session_count⟩ :
        VoiceGraphEdge))) ∧
    (∀ u : String, (∃ n ∈ (transformToGraph vconns).1, n.id = u) ↔
      ∃ c ∈ vconns, c.user_id_1 = u ∨ c.user_id_2 = u) ∧
    (∀ n ∈ (transformToGraph vconns).1,
      n.totalConnections = (vconns.map (vAppearances n.id)).sum ∧
      n.totalSharedTime = (vconns.map (vTimeShare n.id)).sum) ∧
    ((transformToTextGraph tconns).2 = tconns.map (fun c =>
      (⟨c.user_id_1, c.user_id_2, c.interaction_score, c.shared_channel_count⟩ :
        TextGraphEdge))) ∧
    (∀ u : String, (∃ n ∈ (transformToTextGraph tconns).1, n.id = u) ↔
      ∃ c ∈ tconns, c.user_id_1 = u ∨ c.user_id_2 = u) ∧
    (∀ n ∈ (transformToTextGraph tconns).1,
      n.totalConnections = (tconns.map (tAppearances n.id)).sum ∧
      n.totalInteractionScore = (tconns.map (tScoreShare n.id)).sum) ∧
    (transformToGraph
        [⟨"A", "B", 1800, 1, none, none, none, none, none, none⟩,
         ⟨"B", "C", 600, 1, none, none, none, none, none, none⟩] =
      ([⟨"A", none, none, none, 1, 1800⟩, ⟨"B", none, none, none, 2, 2400⟩,
        ⟨"C", none, none, none, 1, 600⟩],
       [⟨"A", "B", 1800, 1⟩, ⟨"B", "C", 600, 1⟩])) := by
  refine ⟨transformToGraphGo_edges vconns [], transformToGraph_node_mem_iff vconns,
    transformToGraph_node_totals vconns, transformToTextGraphGo_edges tconns [],
    transformToTextGraph_node_mem_iff tconns, transformToTextGraph_node_totals tconns,
    ?_⟩
  have hAB : ("A" : String) ≠ "B" := by decide
  have hAC : ("A" : String) ≠ "C" := by decide
  have hBC : ("B" : String) ≠ "C" := by decide
  norm_num [transformToGraph, transformToGraphGo, addGraphUser1, addGraphUser2,
    alistLookup, alistSet, hAB, hAC, hBC, hAB.symm, hAC.symm, hBC.symm]

theorem map_user_id_scoreFriend {m : List (String × CombinedFriend)}
    (h : FriendIdsMatch m) (weight : ServerActivityWeight)
    (mm : List (String × MemberInfo)) :
    ((m.map (fun p => scoreFriend weight mm p.2)).map CombinedFriend.user_id) =
      alistKeys m := by
  induction m with
  | nil => rfl
  | cons p rest ih =>
    have hp := h p (List.mem_cons_self p rest)
    have hrest : FriendIdsMatch rest := fun q hq => h q (List.mem_cons_of_mem _ hq)
    simp only [List.map_cons, alistKeys]
    rw [show (scoreFriend weight mm p.2).user_id = p.1 from
      (scoreFriend_fields weight mm p.2).1.trans hp]
    rw [show List.map CombinedFriend.user_id
        (List.map (fun p => scoreFriend weight mm p.2) rest) = alistKeys rest from ih hrest]
    rfl

theorem combinedCandidates_user_ids (weight : ServerActivityWeight) (userId : String)
    (vd : Option (List VoiceConnRow)) (td : Option (List TextConnRow))
    (members : List MemberInfo) :
    (combinedCandidates weight userId vd td members).map CombinedFriend.user_id =
      alistKeys (combinedFriendMap userId vd td) := by
  rw [combinedCandidates]
  exact map_user_id_scoreFriend (friendIdsMatch_combinedFriendMap userId vd td)
    weight (memberMapOf members)

theorem combinedFriendMap_some_some (userId : String) (vrows : List VoiceConnRow)
    (trows : List TextConnRow) :
    combinedFriendMap userId (some vrows) (some trows) =
      (trows.filter (fun c => connInvolves userId c.user_id_1 c.user_id_2)).foldl
        (processTextConn userId)
        ((vrows.filter (fun c => connInvolves userId c.user_id_1 c.user_id_2)).foldl
          (processVoiceConn userId) []) := rfl

theorem lookup_combinedFriendMap_eq_none_iff (userId f : String)
    (vrows : List VoiceConnRow) (trows : List TextConnRow) :
    alistLookup f (combinedFriendMap userId (some vrows) (some trows)) = none ↔
      f ∉ voiceFriendIds userId vrows ∧ f ∉ textFriendIds userId trows := by
  rw [combinedFriendMap_some_some, lookup_textFold_eq_none_iff,
    lookup_voiceFold_eq_none_iff]
  rw [voiceFriendIds, textFriendIds]
  constructor
  · rintro ⟨⟨h1, h2⟩, h3⟩
    exact ⟨h2, h3⟩
  · rintro ⟨h1, h2⟩
    exact ⟨⟨rfl, h1⟩, h2⟩

theorem combinedCandidates_entry (weight : ServerActivityWeight) (userId : String)
    (vrows : List VoiceConnRow) (trows : List TextConnRow)
    (members : List MemberInfo) :
    ∀ e ∈ combinedCandidates weight userId (some vrows) (some trows) members,
      (e.user_id ∉ textFriendIds userId trows →
        e.text_interaction_score = 0 ∧ e.text_shared_channels = 0) ∧
      (e.user_id ∉ voiceFriendIds userId vrows →
        e.voice_seconds = 0 ∧ e.voice_sessions = 0) ∧
      e.combined_score = round2 ((e.voice_seconds / 3600) * weight.voiceWeight +
        (e.text_interaction_score / 100) * weight.textWeight) := by
  intro e he
  rw [combinedCandidates] at he
  obtain ⟨p, hp, hpe⟩ := List.mem_map.mp he
  have hids := friendIdsMatch_combinedFriendMap userId (some vrows) (some trows)
  have hnd := keys_nodup_combinedFriendMap userId (some vrows) (some trows)
  have hpid : p.2.user_id = p.1 := hids p hp
  have hsf := scoreFriend_fields weight (memberMapOf members) p.2
  have heu : e.user_id = p.1 := by rw [← hpe, hsf.1, hpid]
  have hlookup : alistLookup p.1 (combinedFriendMap userId (some vrows) (some trows)) =
      some p.2 := by
    refine alistLookup_eq_some_of_mem hnd ?_
    exact hp
  refine ⟨?_, ?_, ?_⟩
  · intro hnotin
    rw [heu] at hnotin
    rw [textFriendIds] at hnotin
    have hvlook : alistLookup p.1
        ((vrows.filter (fun c => connInvolves userId c.user_id_1 c.user_id_2)).foldl
          (processVoiceConn userId) []) = some p.2 := by
      rw [← lookup_textFold_not_touched userId p.1
        (trows.filter (fun c => connInvolves userId c.user_id_1 c.user_id_2)) _ hnotin]
      rw [← combinedFriendMap_some_some]
      exact hlookup
    have hz := textFieldsZero_voiceFold userId
      (vrows.filter (fun c => connInvolves userId c.user_id_1 c.user_id_2)) _
      (mem_of_alistLookup_eq_some hvlook)
    rw [← hpe]
    exact ⟨hsf.2.2.2.1.trans hz.1, hsf.2.2.2.2.1.trans hz.2⟩
  · intro hnotin
    rw [heu] at hnotin
    rw [voiceFriendIds] at hnotin
    have hvnone : alistLookup p.1
        ((vrows.filter (fun c => connInvolves userId c.user_id_1 c.user_id_2)).foldl
          (processVoiceConn userId) []) = none := by
      rw [lookup_voiceFold_eq_none_iff]
      exact ⟨rfl, hnotin⟩
    have hview := textFold_voice_view userId p.1
      (trows.filter (fun c => connInvolves userId c.user_id_1 c.user_id_2))
      ((vrows.filter (fun c => connInvolves userId c.user_id_1 c.user_id_2)).foldl
        (processVoiceConn userId) [])
    rw [← combinedFriendMap_some_some, hlookup, hvnone] at hview
    simp at hview
    rw [← hpe]
    exact ⟨hsf.2.1.trans hview.1, hsf.2.2.1.trans hview.2⟩
  · rw [← hpe, hsf.2.2.2.2.2, hsf.2.1, hsf.2.2.2.1]

theorem combinedFriendsRanking_eq_sort_take (weight : ServerActivityWeight)
    (userId : String) (vd : Option (List VoiceConnRow))
    (td : Option (List TextConnRow)) (members : List MemberInfo) (limit : ℕ) :
    combinedFriendsRanking weight userId vd td members limit =
      (sortByComparator combinedLe
        (combinedCandidates weight userId vd td members)).take limit := by
  rw [combinedFriendsRanking]
  by_cases he : (combinedFriendMap userId vd td).isEmpty
  · rw [if_pos he]
    have h2 : combinedFriendMap userId vd td = [] := by
      cases hm : combinedFriendMap userId vd td with
      | nil => rfl
      | cons p rest => rw [hm] at he; simp at he
    rw [combinedCandidates, h2]
    simp [sortByComparator]
  · rw [if_neg he]

theorem combinedFriendsRanking_pairwise (weight : ServerActivityWeight)
    (userId : String) (vd : Option (List VoiceConnRow))
    (td : Option (List TextConnRow)) (members : List MemberInfo) (limit : ℕ) :
    (combinedFriendsRanking weight userId vd td members limit).Pairwise
      (fun a b => a.combined_score > b.combined_score ∨
        (a.combined_score = b.combined_score ∧ a.voice_seconds ≥ b.voice_seconds)) := by
  rw [combinedFriendsRanking_eq_sort_take]
  have hp := pairwise_sortByComparator combinedLe_total combinedLe_trans
    (combinedCandidates weight userId vd td members)
  refine List.Pairwise.sublist (List.take_sublist limit _) (List.Pairwise.imp ?_ hp)
  intro a b h
  rcases (combinedLe_iff a b).mp h with h2 | ⟨h2, h3⟩
  · exact Or.inl h2
  · exact Or.inr ⟨h2.symm, h3⟩

theorem combinedCandidates_none_textZero (weight : ServerActivityWeight)
    (userId : String) (voiceRows : List VoiceConnRow) (members : List MemberInfo) :
    ∀ e ∈ combinedCandidates weight userId (some voiceRows) none members,
      e.text_interaction_score = 0 ∧ e.text_shared_channels = 0 := by
  intro e he
  rw [combinedCandidates] at he
  obtain ⟨p, hp, hpe⟩ := List.mem_map.mp he
  have hmap : combinedFriendMap userId (some voiceRows) none =
      (voiceRows.filter (fun c => connInvolves userId c.user_id_1 c.user_id_2)).foldl
        (processVoiceConn userId) [] := rfl
  rw [hmap] at hp
  have hz := textFieldsZero_voiceFold userId
    (voiceRows.filter (fun c => connInvolves userId c.user_id_1 c.user_id_2)) p hp
  have hsf := scoreFriend_fields weight (memberMapOf members) p.2
  rw [← hpe]
  exact ⟨hsf.2.2.2.1.trans hz.1, hsf.2.2.2.2.1.trans hz.2⟩

theorem combinedFriendMap_none_eq_some_nil (userId : String)
    (vd : Option (List VoiceConnRow)) :
    combinedFriendMap userId vd none = combinedFriendMap userId vd (some []) := rfl

theorem exampleCandidates_eval :
    combinedCandidates (getServerActivityWeight 0 60) "alice"
        (some [⟨"alice", "bob", 100, 1⟩]) (some []) [] =
      [⟨"bob", none, none, none, 100, 1, 0, 0, 3 / 100⟩] := by
  have hab : ("alice" : String) ≠ "bob" := by decide
  norm_num [combinedCandidates, combinedFriendMap, processVoiceConn, friendOf,
    connInvolves, emptyFriend, alistLookup, alistSet, scoreFriend, memberMapOf,
    jsOrNull, round2, jsRound, getServerActivityWeight, hab, hab.symm]

theorem exampleRanking_eval :
    combinedFriendsRanking (getServerActivityWeight 0 60) "alice"
        (some [⟨"alice", "bob", 100, 1⟩]) (some []) [] 5 =
      [⟨"bob", none, none, none, 100, 1, 0, 0, 3 / 100⟩] := by
  rw [combinedFriendsRanking_eq_sort_take, exampleCandidates_eval]
  rfl

/-- C1 counterexample: a guild whose activity is all voice
(`getServerActivityWeight 0 60`, so `voiceWeight = 1`), a viewer with
one voice connection of 100 shared seconds and no text data. The entry
returned for the friend stores `combined_score = 3/100`
(`Math.round(x*100)/100` of the exact score), while the claim's exact
formula gives `(100/3600)*1 + 0 = 1/36 ≠ 3/100` — the combined score is
the rounded value, not the exact formula. -/
theorem C1_counterexample :
    getCombinedTopFriends 0 (some 0) (Except.ok ())
        (getServerActivityWeight 0 60) "alice"
        (Except.ok [⟨"alice", "bob", 100, 1⟩]) (Except.ok []) [] 5 =
      Except.ok ⟨false, [⟨"bob", none, none, none, 100, 1, 0, 0, 3 / 100⟩]⟩ ∧
    (3 / 100 : ℚ) ≠
      (100 / 3600) * (getServerActivityWeight 0 60).voiceWeight +
        (0 / 100) * (getServerActivityWeight 0 60).textWeight := by
  constructor
  · have h : ¬ ((0 : ℚ) - 0 > 24 * 60 * 60 * 1000) := by norm_num
    rw [show getCombinedTopFriends 0 (some 0) (Except.ok ())
        (getServerActivityWeight 0 60) "alice"
        (Except.ok [⟨"alice", "bob", 100, 1⟩]) (Except.ok []) [] 5 =
      Except.ok ⟨false, combinedFriendsRanking (getServerActivityWeight 0 60) "alice"
        (some [⟨"alice", "bob", 100, 1⟩]) (some []) [] 5⟩ by
        simp [getCombinedTopFriends, queryToOption, h]]
    rw [exampleRanking_eval]
  · norm_num [getServerActivityWeight]

/-- C1 (amended): for every guild, viewer and limit, `getCombinedTopFriends`
returns the ranking built from one candidate entry per distinct other user
appearing in the viewer's voice or text `all`-range connection rows; a
friend appearing in only one of the two sets keeps the other metric zero;
each entry's `combined_score` equals the claim's formula rounded to two
decimals, `round2((voiceSeconds/3600)*voiceWeight +
(textInteractionScore/100)*textWeight)`; and the result is the descending
sort by that stored (rounded) score with ties broken by `voice_seconds`
descending, truncated to `limit`. -/
theorem C1_combined_ranking (now : ℚ) (cacheAt : Option ℚ)
    (weight : ServerActivityWeight) (userId : String) (voiceRows : List VoiceConnRow)
    (textRows : List TextConnRow) (members : List MemberInfo) (limit : ℕ) :
    (∃ b : Bool, getCombinedTopFriends now cacheAt (Except.ok ()) weight userId
        (Except.ok voiceRows) (Except.ok textRows) members limit =
      Except.ok ⟨b, combinedFriendsRanking weight userId (some voiceRows)
        (some textRows) members limit⟩) ∧
    ((combinedCandidates weight userId (some voiceRows) (some textRows) members).map
      CombinedFriend.user_id).Nodup ∧
    (∀ f : String,
      f ∈ (combinedCandidates weight userId (some voiceRows) (some textRows)
        members).map CombinedFriend.user_id ↔
      (f ∈ voiceFriendIds userId voiceRows ∨ f ∈ textFriendIds userId textRows)) ∧
    (∀ e ∈ combinedCandidates weight userId (some voiceRows) (some textRows) members,
      (e.user_id ∉ textFriendIds userId textRows →
        e.text_interaction_score = 0 ∧ e.text_shared_channels = 0) ∧
      (e.user_id ∉ voiceFriendIds userId voiceRows →
        e.voice_seconds = 0 ∧ e.voice_sessions = 0) ∧
      e.combined_score = round2 ((e.voice_seconds / 3600) * weight.voiceWeight +
        (e.text_interaction_score / 100) * weight.textWeight)) ∧
    (combinedFriendsRanking weight userId (some voiceRows) (some textRows) members
        limit =
      (sortByComparator combinedLe (combinedCandidates weight userId (some voiceRows)
        (some textRows) members)).take limit) ∧
    (combinedFriendsRanking weight userId (some voiceRows) (some textRows) members
        limit).Pairwise (fun a b => a.combined_score > b.combined_score ∨
        (a.combined_score = b.combined_score ∧ a.voice_seconds ≥ b.voice_seconds)) := by
  refine ⟨getCombinedTopFriends_rpc_ok now cacheAt weight userId (Except.ok voiceRows)
    (Except.ok textRows) members limit, ?_, ?_,
    combinedCandidates_entry weight userId voiceRows textRows members,
    combinedFriendsRanking_eq_sort_take weight userId (some voiceRows) (some textRows)
      members limit,
    combinedFriendsRanking_pairwise weight userId (some voiceRows) (some textRows)
      members limit⟩
  · rw [combinedCandidates_user_ids]
    exact keys_nodup_combinedFriendMap userId (some voiceRows) (some textRows)
  · intro f
    rw [combinedCandidates_user_ids]
    constructor
    · intro hf
      by_contra hn
      push_neg at hn
      have h2 := (lookup_combinedFriendMap_eq_none_iff userId f voiceRows textRows).mpr hn
      rw [alistLookup_eq_none_iff] at h2
      exact h2 hf
    · intro hf
      by_contra hn
      have h2 : alistLookup f (combinedFriendMap userId (some voiceRows)
          (some textRows)) = none := (alistLookup_eq_none_iff _ _).mpr hn
      have h3 := (lookup_combinedFriendMap_eq_none_iff userId f voiceRows textRows).mp h2
      rcases hf with hf | hf
      · exact h3.1 hf
      · exact h3.2 hf

/-- Witness for C1 (amended): in the all-voice example guild the single
candidate for the viewer keeps both text metrics zero. -/
theorem C1_combined_ranking_witness :
    (⟨"bob", none, none, none, 100, 1, 0, 0, 3 / 100⟩ :
      CombinedFriend).text_interaction_score = 0 ∧
    (⟨"bob", none, none, none, 100, 1, 0, 0, 3 / 100⟩ :
      CombinedFriend).text_shared_channels = 0 := by
  have h := (C1_combined_ranking 0 (some 0) (getServerActivityWeight 0 60) "alice"
    [⟨"alice", "bob", 100, 1⟩] [] [] 5).2.2.2.1
  refine (h _ ?_).1 ?_
  · rw [exampleCandidates_eval]
    exact List.mem_singleton.mpr rfl
  · simp [textFriendIds]

/-- C9: a failed text-connections query does not abort
`getCombinedTopFriends`: when the voice query succeeds the run still
returns a ranking, that ranking equals the one computed from the voice
rows alone (text treated as empty), and every returned entry carries zero
text metrics. -/
theorem C9_text_failure_voice_only (now : ℚ) (cacheAt : Option ℚ)
    (weight : ServerActivityWeight) (userId : String) (voiceRows : List VoiceConnRow)
    (members : List MemberInfo) (limit : ℕ) :
    (∃ b : Bool, getCombinedTopFriends now cacheAt (Except.ok ()) weight userId
        (Except.ok voiceRows) (Except.error ()) members limit =
      Except.ok ⟨b, combinedFriendsRanking weight userId (some voiceRows) none
        members limit⟩) ∧
    combinedFriendsRanking weight userId (some voiceRows) none members limit =
      combinedFriendsRanking weight userId (some voiceRows) (some []) members limit ∧
    (∀ f ∈ combinedFriendsRanking weight userId (some voiceRows) none members limit,
      f.text_interaction_score = 0 ∧ f.text_shared_channels = 0) := by
  refine ⟨getCombinedTopFriends_rpc_ok now cacheAt weight userId (Except.ok voiceRows)
    (Except.error ()) members limit, rfl, ?_⟩
  intro f hf
  exact combinedCandidates_none_textZero weight userId voiceRows members f
    (combinedRanking_subset_candidates hf)

/-- Witness for C9: the voice-only example entry, a member of the ranking
computed with the failed text query, has zero text metrics. -/
theorem C9_text_failure_voice_only_witness :
    (⟨"bob", none, none, none, 100, 1, 0, 0, 3 / 100⟩ :
      CombinedFriend).text_interaction_score = 0 := by
  have h := (C9_text_failure_voice_only 0 (some 0) (getServerActivityWeight 0 60)
    "alice" [⟨"alice", "bob", 100, 1⟩] [] 5).2.2
  refine (h _ ?_).1
  rw [show combinedFriendsRanking (getServerActivityWeight 0 60) "alice"
      (some [⟨"alice", "bob", 100, 1⟩]) none [] 5 =
    combinedFriendsRanking (getServerActivityWeight 0 60) "alice"
      (some [⟨"alice", "bob", 100, 1⟩]) (some []) [] 5 from rfl]
  rw [exampleRanking_eval]
  exact List.mem_singleton.mpr rfl

/-- C10: the combined ranking's order is decided on the rounded scores:
every returned entry stores `combined_score = round2(exact formula)`, and
the output is pairwise ordered by descending rounded exact score with
ties broken by descending `voice_seconds` — so two candidates whose
exact scores differ but round to the same two-decimal value are ordered
by `voice_seconds`, not by the exact scores. -/
theorem C10_rounding_before_sort (weight : ServerActivityWeight) (userId : String)
    (voiceRows : List VoiceConnRow) (textRows : List TextConnRow)
    (members : List MemberInfo) (limit : ℕ) :
    (∀ e ∈ combinedFriendsRanking weight userId (some voiceRows) (some textRows)
        members limit,
      e.combined_score = round2 ((e.voice_seconds / 3600) * weight.voiceWeight +
        (e.text_interaction_score / 100) * weight.textWeight)) ∧
    (combinedFriendsRanking weight userId (some voiceRows) (some textRows) members
        limit).Pairwise (fun a b =>
      round2 ((a.voice_seconds / 3600) * weight.voiceWeight +
        (a.text_interaction_score / 100) * weight.textWeight) >
        round2 ((b.voice_seconds / 3600) * weight.voiceWeight +
          (b.text_interaction_score / 100) * weight.textWeight) ∨
      (round2 ((a.voice_seconds / 3600) * weight.voiceWeight +
        (a.text_interaction_score / 100) * weight.textWeight) =
        round2 ((b.voice_seconds / 3600) * weight.voiceWeight +
          (b.text_interaction_score / 100) * weight.textWeight) ∧
        a.voice_seconds ≥ b.voice_seconds)) := by
  have hscore : ∀ e ∈ combinedFriendsRanking weight userId (some voiceRows)
      (some textRows) members limit,
      e.combined_score = round2 ((e.voice_seconds / 3600) * weight.voiceWeight +
        (e.text_interaction_score / 100) * weight.textWeight) := by
    intro e he
    exact (combinedCandidates_entry weight userId voiceRows textRows members e
      (combinedRanking_subset_candidates he)).2.2
  refine ⟨hscore, ?_⟩
  have hp := combinedFriendsRanking_pairwise weight userId (some voiceRows)
    (some textRows) members limit
  refine List.Pairwise.imp_of_mem ?_ hp
  intro a b ha hb h
  rw [← hscore a ha, ← hscore b hb]
  exact h

/-- Witness for C10: in the all-voice example guild the returned entry's
stored score is the rounded exact score. -/
theorem C10_rounding_before_sort_witness :
    (⟨"bob", none, none, none, 100, 1, 0, 0, 3 / 100⟩ :
        CombinedFriend).combined_score =
      round2 ((100 / 3600) * (getServerActivityWeight 0 60).voiceWeight +
        (0 / 100) * (getServerActivityWeight 0 60).textWeight) := by
  have h := (C10_rounding_before_sort (getServerActivityWeight 0 60) "alice"
    [⟨"alice", "bob", 100, 1⟩] [] [] 5).1
  have hmem : (⟨"bob", none, none, none, 100, 1, 0, 0, 3 / 100⟩ : CombinedFriend) ∈
      combinedFriendsRanking (getServerActivityWeight 0 60) "alice"
        (some [⟨"alice", "bob", 100, 1⟩]) (some []) [] 5 := by
    rw [exampleRanking_eval]
    exact List.mem_singleton.mpr rfl
  simpa using h _ hmem

/-- Witness for C7: the node totals of the end-to-end example node `B`. -/
theorem C7_graph_transform_witness :
    ((⟨"B", none, none, none, 2, 2400⟩ : VoiceGraphNode).totalConnections =
      ([(⟨"A", "B", 1800, 1, none, none, none, none, none, none⟩ : VoiceConnection),
        ⟨"B", "C", 600, 1, none, none, none, none, none, none⟩].map
          (vAppearances "B")).sum) ∧
    ((⟨"B", none, none, none, 2, 2400⟩ : VoiceGraphNode).totalSharedTime =
      ([(⟨"A", "B", 1800, 1, none, none, none, none, none, none⟩ : VoiceConnection),
        ⟨"B", "C", 600, 1, none, none, none, none, none, none⟩].map
          (vTimeShare "B")).sum) := by
  have hthm := C7_graph_transform
    [⟨"A", "B", 1800, 1, none, none, none, none, none, none⟩,
     ⟨"B", "C", 600, 1, none, none, none, none, none, none⟩] []
  have hmem : (⟨"B", none, none, none, 2, 2400⟩ : VoiceGraphNode) ∈
      (transformToGraph
        [⟨"A", "B", 1800, 1, none, none, none, none, none, none⟩,
         ⟨"B", "C", 600, 1, none, none, none, none, none, none⟩]).1 := by
    have hAB : ("A" : String) ≠ "B" := by decide
    have hAC : ("A" : String) ≠ "C" := by decide
    have hBC : ("B" : String) ≠ "C" := by decide
    norm_num [transformToGraph, transformToGraphGo, addGraphUser1, addGraphUser2,
      alistLookup, alistSet, hAB, hAC, hBC, hAB.symm, hAC.symm, hBC.symm]
  exact hthm.2.2.1 _ hmem

end Pbot
